import Mathlib

/-!
Request tracking core of acnetd (`reqinfo.cpp`).

A shallow embedding of `RequestPool` and the operations defined in
`reqinfo.cpp`: `alloc`, `release`, `oldest`, `cancelReqToNode`, `cancelReqId`,
`sendRequestTimeoutsAndGetNextTimeout`, `reqInList`, `fillActiveRequests`,
`fillRequestDetail`.

Pointers to `ReqInfo` are request ids (indices into the id pool), pointers to
`TaskInfo` are indices into the task table of the owning `TaskPool`.  Packets
handed to the transport and clients handed to the registry are recorded in a
trace (`TaskPool.sent`).  Calls to `syslog` are not modelled.
-/

namespace Acnetd

/-! ## Data model -/

/-- Time value with the two fields the source reads (`tv_sec`, `tv_usec`). -/
structure timeval where
  tv_sec : Nat
  tv_usec : Nat
deriving DecidableEq, Repr, Inhabited

/-- Request record: the members `RequestPool::alloc` assigns, plus `lastUpdate`
which `fillRequestDetail` reads. -/
structure ReqInfo where
  task_ : Nat
  taskName_ : Nat
  lclNode_ : Nat
  remNode_ : Nat
  flags : Nat
  tmoMs : Nat
  initTime_ : Nat
  lastUpdate : timeval
  totalPackets : Nat
  mcast : Bool
deriving DecidableEq, Repr, Inhabited

/-- Flag words used by the headers built in `reqinfo.cpp`. -/
inductive AcnetFlag where
  | ACNET_FLG_RPY
  | ACNET_FLG_CAN
deriving DecidableEq, Repr, Inhabited

/-- Status words used by the headers built in `reqinfo.cpp`. -/
inductive AcnetStatus where
  | ACNET_SUCCESS
  | ACNET_DISCONNECTED
  | ACNET_TMO
deriving DecidableEq, Repr, Inhabited

/-- Header as built by the eight-argument constructor calls of the source, in
argument order. -/
structure AcnetHeader where
  flags : AcnetFlag
  status : AcnetStatus
  remNode : Nat
  lclNode : Nat
  taskName : Nat
  taskId : Nat
  msgId : Nat
  msgLen : Nat
deriving DecidableEq, Repr, Inhabited

/-- Externally visible actions: a header given to `sendDataToNetwork`, a header
given to `sendDataToClient` of a task, a task given to `removeTask`. -/
inductive Event where
  | toNetwork (hdr : AcnetHeader)
  | toClient (task : Nat) (hdr : AcnetHeader)
  | removeTask (task : Nat)
deriving DecidableEq, Repr

/-- Modelled from the spec: `TaskInfo` is declared outside `reqinfo.cpp`.  A
client has a task id, a task handle, a membership set of request ids and the
two counters the source increments. -/
structure TaskInfo where
  id : Nat
  handle : Nat
  requests : List Nat
  statRpyRcv : Nat
  statUsmXmt : Nat
deriving DecidableEq, Repr, Inhabited

/-- Modelled from the spec: `IdPool` is declared outside `reqinfo.cpp`.  A
fixed-capacity table of optional records indexed by id, with the historical
maximum of the active count. -/
structure IdPool where
  slots : List (Option ReqInfo)
  maxActive : Nat
deriving DecidableEq, Repr, Inhabited

/-- Request pool: the id pool and the expiration queue hanging off `root`
(request ids, oldest first). -/
structure RequestPool where
  idPool : IdPool
  root : List Nat
deriving DecidableEq, Repr, Inhabited

/-- Task pool owning the request pool: task table, pool-wide counters and the
trace of external actions. -/
structure TaskPool where
  tasks : List TaskInfo
  statRpyRcv : Nat
  statUsmXmt : Nat
  reqPool : RequestPool
  sent : List Event
deriving DecidableEq, Repr

/-- Result list of `fillActiveRequests`: `ids` holds the values written to
`rl.ids[0]`, `rl.ids[1]`, ... in order. -/
structure AcnetReqList where
  total : Nat
  ids : List Nat
deriving DecidableEq, Repr, Inhabited

/-- Failures of `RequestPool::alloc`: pool exhaustion and the `std::logic_error`
thrown when the task already holds the id. -/
inductive AllocError where
  | bad_alloc
  | logic_error
deriving DecidableEq, Repr

/-- Constants, macros and collaborators that `reqinfo.cpp` uses and does not
define.  `load32` is the 32-bit read of two consecutive 16-bit words;
`maxReqListIds` is the number of elements of the array `AcnetReqList::ids`. -/
structure Env where
  REQUEST_TIMEOUT : Nat
  sizeofAcnetHeader : Nat
  now : timeval
  getAddr : Nat → Option Nat
  htonl : Nat → Nat
  expiration : ReqInfo → timeval
  sendDataToClient : List Event → Nat → AcnetHeader → Bool
  htoas : Nat → Nat
  atohs : Nat → Nat
  htoal : Nat → Nat
  atohl : Nat → Nat
  load32 : Nat → Nat → Nat
  maxReqListIds : Nat

/-- The ceiling `REQUEST_TIMEOUT * 1000u`, computed in 32-bit unsigned
arithmetic. -/
def MAX_TIMEOUT_MS (env : Env) : Nat := env.REQUEST_TIMEOUT * 1000 % 2 ^ 32

/-- `IN_MULTICAST` of a 32-bit address: the top four bits are `1110`. -/
def IN_MULTICAST (a : Nat) : Bool := a % 2 ^ 32 / 2 ^ 28 == 14

/-- Modelled from the spec: `operator<=` on time values is declared outside
`reqinfo.cpp`; time values are ordered by seconds, then microseconds. -/
def timeval.le (a b : timeval) : Bool :=
  a.tv_sec < b.tv_sec || (a.tv_sec == b.tv_sec && a.tv_usec ≤ b.tv_usec)

/-- Modelled from the spec: `diffInMs` is declared outside `reqinfo.cpp`; the
duration from `b` to `a` in milliseconds, microseconds truncated toward zero. -/
def diffInMs (a b : timeval) : Int :=
  ((a.tv_sec : Int) - (b.tv_sec : Int)) * 1000
    + Int.tdiv ((a.tv_usec : Int) - (b.tv_usec : Int)) 1000

/-! ## Task membership (modelled from the spec) -/

/-- Modelled from the spec: `TaskInfo::addRequest` is declared outside
`reqinfo.cpp`; it adds the id to the membership set and reports false when the
client already holds it. -/
def TaskInfo.addRequest (t : TaskInfo) (id : Nat) : Bool × TaskInfo :=
  if id ∈ t.requests then (false, t) else (true, { t with requests := id :: t.requests })

/-- Modelled from the spec: `TaskInfo::removeRequest` is declared outside
`reqinfo.cpp`; it removes the id from the membership set and reports false when
the client does not hold it. -/
def TaskInfo.removeRequest (t : TaskInfo) (id : Nat) : Bool × TaskInfo :=
  if id ∈ t.requests then (true, { t with requests := t.requests.filter (fun x => x != id) })
  else (false, t)

/-- The task a `TaskInfo` pointer refers to. -/
def TaskPool.task (w : TaskPool) (t : Nat) : TaskInfo := w.tasks.getD t default

/-- Store through a `TaskInfo` pointer. -/
def TaskPool.setTask (w : TaskPool) (t : Nat) (ti : TaskInfo) : TaskPool :=
  { w with tasks := w.tasks.set t ti }

/-- Append an external action to the trace. -/
def TaskPool.emit (w : TaskPool) (e : Event) : TaskPool :=
  { w with sent := w.sent ++ [e] }

/-! ## Id pool (modelled from the spec) -/

/-- Live entries of a slot table in table order, with their ids, numbering the
first slot `i`. -/
def liveFrom : Nat → List (Option ReqInfo) → List (Nat × ReqInfo)
  | _, [] => []
  | i, none :: t => liveFrom (i + 1) t
  | i, some r :: t => (i, r) :: liveFrom (i + 1) t

/-- Index of the lowest free slot of a slot table. -/
def firstFree : List (Option ReqInfo) → Option Nat
  | [] => none
  | none :: _ => some 0
  | some _ :: t => (firstFree t).map (fun i => i + 1)

/-- All live entries of the pool in table order. -/
def IdPool.active (p : IdPool) : List (Nat × ReqInfo) := liveFrom 0 p.slots

/-- Modelled from the spec: `IdPool::entry`, the record if the id denotes a
live slot. -/
def IdPool.entry (p : IdPool) (id : Nat) : Option ReqInfo := p.slots.getD id none

/-- Modelled from the spec: `IdPool::activeIdCount`, the number of live slots. -/
def IdPool.activeIdCount (p : IdPool) : Nat := p.active.length

/-- Modelled from the spec: `IdPool::alloc` claims the lowest free slot and sets
it live; no result when every slot is live. -/
def IdPool.alloc (p : IdPool) : Option (Nat × IdPool) :=
  match firstFree p.slots with
  | some i =>
    let slots := p.slots.set i (some default)
    some (i, { slots := slots, maxActive := max p.maxActive (liveFrom 0 slots).length })
  | none => none

/-- Store through a `ReqInfo` pointer. -/
def IdPool.setEntry (p : IdPool) (id : Nat) (r : ReqInfo) : IdPool :=
  { p with slots := p.slots.set id (some r) }

/-- Modelled from the spec: `IdPool::release` marks the slot free. -/
def IdPool.release (p : IdPool) (id : Nat) : IdPool :=
  { p with slots := p.slots.set id none }

/-- Modelled from the spec: `IdPool::next`, the next live entry in table order
after the given one, or the first live entry when none is given. -/
def IdPool.next (p : IdPool) (cur : Option Nat) : Option (Nat × ReqInfo) :=
  match cur with
  | none => p.active.head?
  | some c => p.active.find? (fun e => decide (c < e.1))

/-! ## Request pool operations (`reqinfo.cpp`) -/

/-- Modelled from the spec: `Node::detach` is declared outside `reqinfo.cpp`; it
takes the record out of the expiration queue and does nothing when the record
is not queued. -/
def RequestPool.detach (rp : RequestPool) (id : Nat) : RequestPool :=
  { rp with root := rp.root.filter (fun x => x != id) }

/-- Modelled from the spec: `RequestPool::update` is declared outside
`reqinfo.cpp`; it sets `lastUpdate` to now, counts a packet and moves the record
to the tail of the expiration queue. -/
def RequestPool.update (env : Env) (rp : RequestPool) (id : Nat) : RequestPool :=
  match rp.idPool.entry id with
  | none => rp
  | some r =>
    { idPool := rp.idPool.setEntry id
        { r with lastUpdate := env.now, totalPackets := r.totalPackets + 1 },
      root := (rp.detach id).root ++ [id] }

/-- The function `RequestPool::release`: detach from the queue, then give the
slot back to the id pool. -/
def RequestPool.release (rp : RequestPool) (id : Nat) : RequestPool :=
  let rp1 := rp.detach id
  { rp1 with idPool := rp1.idPool.release id }

/-- The call `free(req)` in the failure branch of `RequestPool::alloc`.
`reqinfo.cpp` defines `RequestPool::release` and no `RequestPool::free`: the
unqualified name is the C library deallocator, which performs no operation of
the id pool or of the expiration queue. -/
def free (rp : RequestPool) (_req : Nat) : RequestPool := rp

/-- The function `RequestPool::oldest`: the head of the expiration queue. -/
def RequestPool.oldest (rp : RequestPool) : Option Nat := rp.root.head?

/-- Increment `statRpyRcv` of a task and of its pool. -/
def TaskPool.bumpRpyRcv (w : TaskPool) (t : Nat) : TaskPool :=
  let w1 := w.setTask t { w.task t with statRpyRcv := (w.task t).statRpyRcv + 1 }
  { w1 with statRpyRcv := w1.statRpyRcv + 1 }

/-- Increment `statUsmXmt` of a task and of its pool. -/
def TaskPool.bumpUsmXmt (w : TaskPool) (t : Nat) : TaskPool :=
  let w1 := w.setTask t { w.task t with statUsmXmt := (w.task t).statUsmXmt + 1 }
  { w1 with statUsmXmt := w1.statUsmXmt + 1 }

/-- The function `RequestPool::alloc`.  The result pairs the returned id, or the
exception thrown, with the state left behind.  A task pointer is an index into
the task table, so `assert(task)` always passes. -/
def RequestPool.alloc (env : Env) (w : TaskPool)
    (task taskName lclNode remNode flags tmo : Nat) : Except AllocError Nat × TaskPool :=
  match w.reqPool.idPool.alloc with
  | none => (.error .bad_alloc, w)
  | some (req, pool1) =>
    let blank := (pool1.entry req).getD default
    let rec_ : ReqInfo :=
      { blank with
        task_ := task, taskName_ := taskName, lclNode_ := lclNode, remNode_ := remNode,
        flags := flags, tmoMs := min (max tmo 400) (MAX_TIMEOUT_MS env),
        initTime_ := env.now.tv_sec, totalPackets := 0,
        mcast := match env.getAddr remNode with
          | none => false
          | some s_addr => IN_MULTICAST (env.htonl s_addr) }
    let w1 : TaskPool := { w with reqPool := { w.reqPool with idPool := pool1.setEntry req rec_ } }
    let r := (w1.task task).addRequest req
    let w2 := w1.setTask task r.2
    if r.1 then (.ok req, { w2 with reqPool := w2.reqPool.update env req })
    else (.error .logic_error, { w2 with reqPool := free w2.reqPool req })

/-- The block `if (xmt) { ... }` of `RequestPool::cancelReqId`: the cancel USM to
the network and, when asked for, the last reply to the requestor. -/
def cancelReqIdXmt (env : Env) (w : TaskPool) (id : Nat) (req : ReqInfo)
    (xmt sendLastReply : Bool) : TaskPool :=
  if xmt then
    let t := req.task_
    let hdr : AcnetHeader :=
      ⟨.ACNET_FLG_CAN, .ACNET_SUCCESS, req.remNode_, req.lclNode_, req.taskName_,
        (w.task t).id, id, env.sizeofAcnetHeader⟩
    let a := (w.emit (.toNetwork hdr)).bumpUsmXmt t
    if sendLastReply then
      let hdr2 : AcnetHeader :=
        ⟨.ACNET_FLG_RPY, .ACNET_DISCONNECTED, req.remNode_, req.lclNode_, req.taskName_,
          (a.task t).id, id, env.sizeofAcnetHeader⟩
      (a.emit (.toClient t hdr2)).bumpRpyRcv t
    else a
  else w

/-- The function `RequestPool::cancelReqId`.  Clearing `req->task_` before the
release is not visible once the slot is free. -/
def RequestPool.cancelReqId (env : Env) (w : TaskPool) (id : Nat)
    (xmt sendLastReply : Bool) : Bool × TaskPool :=
  match w.reqPool.idPool.entry id with
  | none => (false, w)
  | some req =>
    let w1 := w.setTask req.task_ ((w.task req.task_).removeRequest id).2
    let w2 := cancelReqIdXmt env w1 id req xmt sendLastReply
    (true, { w2 with reqPool := w2.reqPool.release id })

/-- The body run by `RequestPool::cancelReqToNode` for the matching request: the
faked DISCONNECTED reply to the local client, the counters, `removeRequest`,
`release`, and `removeTask` when the send failed. -/
def cancelReqToNodeHit (env : Env) (w : TaskPool) (id : Nat) (req : ReqInfo) : TaskPool :=
  let t := req.task_
  let hdr : AcnetHeader :=
    ⟨.ACNET_FLG_RPY, .ACNET_DISCONNECTED, req.remNode_, req.lclNode_, req.taskName_,
      (w.task t).id, id, env.sizeofAcnetHeader⟩
  let failed := !env.sendDataToClient w.sent t hdr
  let w1 := (w.emit (.toClient t hdr)).bumpRpyRcv t
  let w2 := w1.setTask t ((w1.task t).removeRequest id).2
  let w3 : TaskPool := { w2 with reqPool := w2.reqPool.release id }
  if failed then w3.emit (.removeTask t) else w3

/-- The loop of `RequestPool::cancelReqToNode`, entered with the iterator `cur`;
no result when the fuel runs out. -/
def cancelReqToNodeLoop (env : Env) (tn : Nat) : Nat → Option Nat → TaskPool → Option TaskPool
  | 0, _, _ => none
  | fuel + 1, cur, w =>
    match w.reqPool.idPool.next cur with
    | none => some w
    | some (id, req) =>
      if req.remNode_ = tn then some (cancelReqToNodeHit env w id req)
      else cancelReqToNodeLoop env tn fuel (some id) w

/-- The function `RequestPool::cancelReqToNode`. -/
def RequestPool.cancelReqToNode (env : Env) (w : TaskPool) (tn : Nat) : Option TaskPool :=
  cancelReqToNodeLoop env tn (w.reqPool.idPool.slots.length + 1) none w

/-- The body run by `RequestPool::sendRequestTimeoutsAndGetNextTimeout` for an
expired request: the TMO reply to the local client, the counters,
`cancelReqId(req->id(), true)` with `sendLastReply` left at its default (false),
and `removeTask` when the send failed. -/
def sweepExpired (env : Env) (w : TaskPool) (id : Nat) (req : ReqInfo) : TaskPool :=
  let t := req.task_
  let hdr : AcnetHeader :=
    ⟨.ACNET_FLG_RPY, .ACNET_TMO, req.remNode_, req.lclNode_, req.taskName_,
      (w.task t).id, id, env.sizeofAcnetHeader⟩
  let failed := !env.sendDataToClient w.sent t hdr
  let w1 := (w.emit (.toClient t hdr)).bumpRpyRcv t
  let w2 := (RequestPool.cancelReqId env w1 id true false).2
  if failed then w2.emit (.removeTask t) else w2

/-- Conversion of a millisecond count to the 32-bit `int` that
`sendRequestTimeoutsAndGetNextTimeout` returns: the value modulo 2^32, taken in
`[-2^31, 2^31)`. -/
def toInt32 (x : Int) : Int := (x + 2147483648) % 4294967296 - 2147483648

/-- The loop of `RequestPool::sendRequestTimeoutsAndGetNextTimeout`; no result
when the fuel runs out or when the queue head is not a live record.  The result
is the function's `int`: `return diffInMs(expiration, now())` narrows the
duration to 32 bits. -/
def sweepLoop (env : Env) : Nat → TaskPool → Option (Int × TaskPool)
  | 0, _ => none
  | fuel + 1, w =>
    match w.reqPool.oldest with
    | none => some (-1, w)
    | some id =>
      match w.reqPool.idPool.entry id with
      | none => none
      | some req =>
        let expiration := env.expiration req
        if expiration.le env.now then sweepLoop env fuel (sweepExpired env w id req)
        else some (toInt32 (diffInMs expiration env.now), w)

/-- The function `RequestPool::sendRequestTimeoutsAndGetNextTimeout`; the first
component of the result is the 32-bit `int` returned. -/
def RequestPool.sendRequestTimeoutsAndGetNextTimeout (env : Env) (w : TaskPool) :
    Option (Int × TaskPool) :=
  sweepLoop env (w.reqPool.root.length + 1) w

/-- Case 0 of `reqInList`: `n` 16-bit node words. -/
def reqInList0 (env : Env) (req : ReqInfo) : List Nat → Nat → Bool
  | _, 0 => false
  | data, n + 1 =>
    if req.remNode_ = env.atohs (data.headD 0) then true
    else reqInList0 env req data.tail n

/-- Cases 1 and 2 of `reqInList`: 32-bit handles read two words at a time while
more than one word is left. -/
def reqInList32 (env : Env) (handle : Nat) : List Nat → Nat → Bool
  | data, n + 2 =>
    if handle = env.atohl (env.load32 (data.headD 0) (data.tail.headD 0)) then true
    else reqInList32 env handle data.tail.tail n
  | _, _ => false

/-- The function `reqInList`. -/
def reqInList (env : Env) (w : TaskPool) (req : ReqInfo) (subType : Nat)
    (data : List Nat) (n : Nat) : Bool :=
  match subType with
  | 0 => reqInList0 env req data n
  | 1 => reqInList32 env req.taskName_ data n
  | 2 => reqInList32 env (w.task req.task_).handle data n
  | _ => false

/-- The statement `rl.ids[rl.total++] = v`. -/
def AcnetReqList.put (rl : AcnetReqList) (v : Nat) : AcnetReqList :=
  { total := rl.total + 1, ids := rl.ids ++ [v] }

/-- The loop of `RequestPool::fillActiveRequests`, entered with the iterator
`cur`; no result when the fuel runs out. -/
def fillLoop (env : Env) (w : TaskPool) (subType : Nat) (data : List Nat) (n : Nat) :
    Nat → Option Nat → AcnetReqList → Option AcnetReqList
  | 0, _, _ => none
  | fuel + 1, cur, rl =>
    match w.reqPool.idPool.next cur with
    | none => some rl
    | some (id, req) =>
      fillLoop env w subType data n fuel (some id)
        (if n = 0 ∨ reqInList env w req subType data n = true then rl.put (env.htoas id) else rl)

/-- The function `RequestPool::fillActiveRequests`. -/
def RequestPool.fillActiveRequests (env : Env) (w : TaskPool) (subType : Nat)
    (data : List Nat) (n : Nat) : Option AcnetReqList :=
  fillLoop env w subType data n (w.reqPool.idPool.slots.length + 1) none ⟨0, []⟩

/-- Detail record filled by `fillRequestDetail`, with the six members the source
assigns. -/
structure reqDetail where
  id : Nat
  remNode : Nat
  remName : Nat
  lclName : Nat
  initTime : Nat
  lastUpdate : Nat
deriving DecidableEq, Repr, Inhabited

/-- The function `RequestPool::fillRequestDetail`: the result pairs the returned
flag with the buffer after the call.  The two times pass through the 32-bit
argument of `htoal`. -/
def RequestPool.fillRequestDetail (env : Env) (w : TaskPool) (id : Nat) (buf : reqDetail) :
    Bool × reqDetail :=
  match w.reqPool.idPool.entry (env.atohs id) with
  | some req =>
    (true,
      { id := env.atohs id,
        remNode := env.htoas req.remNode_,
        remName := env.htoal req.taskName_,
        lclName := env.htoal (w.task req.task_).handle,
        initTime := env.htoal (req.initTime_ % 2 ^ 32),
        lastUpdate := env.htoal (req.lastUpdate.tv_sec % 2 ^ 32) })
  | none => (false, buf)

/-! ## Observations used to state the sweep and the queue invariant -/

/-- The request id carried by a TMO reply to a client; nothing for any other
event. -/
def tmoReplyId : Event → Option Nat
  | .toClient _ hdr => if hdr.status = .ACNET_TMO then some hdr.msgId else none
  | _ => none

/-- The request ids of the TMO replies of a trace, in the order sent. -/
def tmoReplyIds (tr : List Event) : List Nat := tr.filterMap tmoReplyId

/-- Whether the record under an id is live with `expiration() <= now()`. -/
def expired (env : Env) (w : TaskPool) (id : Nat) : Bool :=
  match w.reqPool.idPool.entry id with
  | some req => (env.expiration req).le env.now
  | none => false

/-- The expiration queue and the id pool hold the same records: an id is queued
exactly when its slot is live. -/
def RequestPool.Sync (rp : RequestPool) : Prop :=
  ∀ id, id ∈ rp.root ↔ ∃ r, rp.idPool.entry id = some r

/-! ## Sample environment and states -/

/-- An environment with `REQUEST_TIMEOUT = 390`, an 18-byte header, identity
byte-order conversions, client sends that succeed and a two-element output
array for request lists. -/
def sampleEnv : Env :=
  { REQUEST_TIMEOUT := 390, sizeofAcnetHeader := 18, now := ⟨1000, 0⟩,
    getAddr := fun _ => none, htonl := fun a => a,
    expiration := fun r => ⟨r.initTime_ + r.tmoMs / 1000, r.tmoMs % 1000 * 1000⟩,
    sendDataToClient := fun _ _ _ => true,
    htoas := fun a => a, atohs := fun a => a, htoal := fun a => a, atohl := fun a => a,
    load32 := fun lo hi => lo + 65536 * hi, maxReqListIds := 2 }

/-- The sample environment one thousand seconds later. -/
def sampleEnvLate : Env := { sampleEnv with now := ⟨2000, 0⟩ }

/-- One client (task id 7, handle 77) and an empty request pool of two slots. -/
def sampleEmpty : TaskPool :=
  { tasks := [⟨7, 77, [], 0, 0⟩], statRpyRcv := 0, statUsmXmt := 0,
    reqPool := ⟨⟨[none, none], 0⟩, []⟩, sent := [] }

/-- As `sampleEmpty`, but the client already holds request id 0. -/
def sampleHeld : TaskPool :=
  { tasks := [⟨7, 77, [0], 0, 0⟩], statRpyRcv := 0, statUsmXmt := 0,
    reqPool := ⟨⟨[none, none], 0⟩, []⟩, sent := [] }

/-- The record of the one request of `sampleOne`. -/
def sampleReq : ReqInfo :=
  { task_ := 0, taskName_ := 5, lclNode_ := 1, remNode_ := 2, flags := 0, tmoMs := 400,
    initTime_ := 1000, lastUpdate := ⟨1000, 0⟩, totalPackets := 1, mcast := false }

/-- One client holding one active request, id 0, addressed to node 2. -/
def sampleOne : TaskPool :=
  { tasks := [⟨7, 77, [0], 0, 0⟩], statRpyRcv := 0, statUsmXmt := 0,
    reqPool := ⟨⟨[some sampleReq, none], 1⟩, [0]⟩, sent := [] }

/-- One client holding two active requests, ids 0 and 1, to nodes 2 and 3. -/
def sampleTwo : TaskPool :=
  { tasks := [⟨7, 77, [1, 0], 0, 0⟩], statRpyRcv := 0, statUsmXmt := 0,
    reqPool := ⟨⟨[some sampleReq, some { sampleReq with remNode_ := 3 }], 2⟩, [0, 1]⟩,
    sent := [] }

/-- Exchange of the two bytes of a 16-bit value. -/
def bswap16 (x : Nat) : Nat := x % 256 * 256 + x / 256 % 256

/-- Reversal of the four bytes of a 32-bit value. -/
def bswap32 (x : Nat) : Nat :=
  x % 256 * 16777216 + x / 256 % 256 * 65536 + x / 65536 % 256 * 256 + x / 16777216 % 256

/-- The sample environment on a host whose byte order is the reverse of the
wire's: every conversion swaps bytes. -/
def sampleEnvSwap : Env :=
  { sampleEnv with
    htoas := bswap16, atohs := bswap16, htoal := bswap32, atohl := bswap32, htonl := bswap32 }

/-- The sample environment with every send to a client reporting failure. -/
def sampleEnvFail : Env := { sampleEnv with sendDataToClient := fun _ _ _ => false }

/-- The byte-swapping host with node 2 resolving to 224.0.0.1, stored in network
byte order. -/
def sampleEnvMcast : Env :=
  { sampleEnvSwap with getAddr := fun n => if n = 2 then some 16777440 else none }

/-- One client holding two active requests, ids 0 and 1, both to node 2. -/
def sampleSameNode : TaskPool :=
  { tasks := [⟨7, 77, [1, 0], 0, 0⟩], statRpyRcv := 0, statUsmXmt := 0,
    reqPool := ⟨⟨[some sampleReq, some sampleReq], 2⟩, [0, 1]⟩, sent := [] }

/-- One client holding two queued requests: id 0 created at second 1000, id 1
created at second 3000, both with a 400 ms timeout. -/
def sampleMixed : TaskPool :=
  { tasks := [⟨7, 77, [1, 0], 0, 0⟩], statRpyRcv := 0, statUsmXmt := 0,
    reqPool := ⟨⟨[some sampleReq, some { sampleReq with initTime_ := 3000 }], 2⟩, [0, 1]⟩,
    sent := [] }

/-! ## Lemmas on lists and the id pool -/

theorem getD_set_self {α : Type} (l : List α) (i : Nat) (v d : α) (h : i < l.length) :
    (l.set i v).getD i d = v := by
  simp [List.getD_eq_getElem?_getD, List.getElem?_set, h]

theorem getD_set_other {α : Type} (l : List α) (i j : Nat) (v d : α) (h : i ≠ j) :
    (l.set i v).getD j d = l.getD j d := by
  simp [List.getD_eq_getElem?_getD, List.getElem?_set, h]

theorem firstFree_some : ∀ (l : List (Option ReqInfo)) (i : Nat), firstFree l = some i →
    i < l.length ∧ l.getD i none = none
  | [], i, h => by simp [firstFree] at h
  | none :: t, i, h => by
    simp only [firstFree, Option.some.injEq] at h
    subst h
    simp
  | some r :: t, i, h => by
    simp only [firstFree, Option.map_eq_some'] at h
    obtain ⟨j, hj, rfl⟩ := h
    obtain ⟨h1, h2⟩ := firstFree_some t j hj
    exact ⟨by simpa using h1, by simpa using h2⟩

theorem IdPool.alloc_some {p p1 : IdPool} {id : Nat} (h : p.alloc = some (id, p1)) :
    id < p.slots.length ∧ p.entry id = none ∧ p1.slots = p.slots.set id (some default) := by
  unfold IdPool.alloc at h
  split at h
  · rename_i i hi
    simp only [Option.some.injEq, Prod.mk.injEq] at h
    obtain ⟨h1, h2⟩ := h
    subst h1
    subst h2
    obtain ⟨ha, hb⟩ := firstFree_some _ _ hi
    exact ⟨ha, hb, rfl⟩
  · exact absurd h (by simp)

theorem entry_setEntry_self (p : IdPool) (id : Nat) (r : ReqInfo) (h : id < p.slots.length) :
    (p.setEntry id r).entry id = some r := by
  unfold IdPool.setEntry IdPool.entry
  exact getD_set_self _ _ _ _ h

/-- Every id listed by `liveFrom k` is at least `k`. -/
theorem liveFrom_ge : ∀ (l : List (Option ReqInfo)) (k : Nat) (e : Nat × ReqInfo),
    e ∈ liveFrom k l → k ≤ e.1
  | [], _, _, h => by simp [liveFrom] at h
  | none :: t, k, e, h => by
    simp only [liveFrom] at h
    have := liveFrom_ge t (k + 1) e h
    omega
  | some r :: t, k, e, h => by
    simp only [liveFrom, List.mem_cons] at h
    rcases h with h | h
    · subst h; exact Nat.le_refl _
    · have := liveFrom_ge t (k + 1) e h
      omega

/-- Membership in `liveFrom k l`: the slot at offset `j - k` is live with that record. -/
theorem mem_liveFrom : ∀ (l : List (Option ReqInfo)) (k j : Nat) (r : ReqInfo),
    (j, r) ∈ liveFrom k l ↔ k ≤ j ∧ l.getD (j - k) none = some r
  | [], k, j, r => by simp [liveFrom]
  | a :: t, k, j, r => by
    have ih := mem_liveFrom t (k + 1) j r
    rcases Nat.lt_or_ge k j with hlt | hge
    · obtain ⟨m, hm⟩ : ∃ m, j - k = m + 1 := ⟨j - k - 1, by omega⟩
      have hm2 : j - (k + 1) = m := by omega
      rw [hm, List.getD_cons_succ]
      rw [hm2] at ih
      cases a with
      | none => simp only [liveFrom]; rw [ih]; constructor <;> intro h <;> exact ⟨by omega, h.2⟩
      | some r0 =>
        simp only [liveFrom, List.mem_cons, Prod.mk.injEq]
        rw [ih]
        constructor
        · rintro (h | h)
          · omega
          · exact ⟨by omega, h.2⟩
        · intro h; exact Or.inr ⟨by omega, h.2⟩
    · rcases Nat.eq_or_lt_of_le hge with heq | hlt
      · subst heq
        cases a with
        | none =>
          simp only [liveFrom, Nat.sub_self, List.getD_cons_zero]
          constructor
          · intro h; have := liveFrom_ge t (j + 1) _ h; simp at this
          · intro h; exact absurd h.2 (by simp)
        | some r0 =>
          simp only [liveFrom, List.mem_cons, Prod.mk.injEq, Nat.sub_self, List.getD_cons_zero,
            Option.some.injEq, true_and, Nat.le_refl]
          constructor
          · rintro (h | h)
            · exact h.symm
            · have := liveFrom_ge t (j + 1) _ h; simp at this
          · intro h; exact Or.inl h.symm
      · constructor
        · intro h
          have := liveFrom_ge (a :: t) k _ h
          simp at this; omega
        · intro h; omega

/-- The list `liveFrom k l` is strictly increasing in the id. -/
theorem liveFrom_sorted : ∀ (l : List (Option ReqInfo)) (k : Nat),
    (liveFrom k l).Pairwise (fun a b => a.1 < b.1)
  | [], _ => by simp [liveFrom]
  | none :: t, k => by simp only [liveFrom]; exact liveFrom_sorted t (k + 1)
  | some r :: t, k => by
    simp only [liveFrom, List.pairwise_cons]
    refine ⟨fun e he => ?_, liveFrom_sorted t (k + 1)⟩
    have := liveFrom_ge t (k + 1) e he
    omega

theorem liveFrom_length_le : ∀ (l : List (Option ReqInfo)) (k : Nat),
    (liveFrom k l).length ≤ l.length
  | [], _ => by simp [liveFrom]
  | none :: t, k => by
    simp only [liveFrom, List.length_cons]
    have := liveFrom_length_le t (k + 1); omega
  | some r :: t, k => by
    simp only [liveFrom, List.length_cons]
    have := liveFrom_length_le t (k + 1); omega

/-- Freeing slot `i` removes exactly the entry with that id from the live list. -/
theorem liveFrom_set_none : ∀ (l : List (Option ReqInfo)) (k i : Nat),
    liveFrom k (l.set i none) = (liveFrom k l).filter (fun e => e.1 != k + i)
  | [], k, i => by simp [liveFrom]
  | a :: t, k, 0 => by
    have hid : (liveFrom (k + 1) t).filter (fun e => e.1 != k + 0) = liveFrom (k + 1) t := by
      rw [List.filter_eq_self]
      intro e he
      have := liveFrom_ge t (k + 1) e he
      simp; omega
    cases a with
    | none => simp only [List.set_cons_zero, liveFrom]; exact hid.symm
    | some r =>
      simp only [List.set_cons_zero, liveFrom]
      rw [List.filter_cons_of_neg (by simp), hid]
  | a :: t, k, i + 1 => by
    have ih := liveFrom_set_none t (k + 1) i
    have e1 : k + 1 + i = k + (i + 1) := by omega
    rw [e1] at ih
    cases a with
    | none => simp only [List.set_cons_succ, liveFrom]; exact ih
    | some r =>
      simp only [List.set_cons_succ, liveFrom]
      rw [List.filter_cons_of_pos (by simp), ih]

/-- Writing a record into slot `i` that was free adds one live entry. -/
theorem liveFrom_length_set_some_of_none : ∀ (l : List (Option ReqInfo)) (k i : Nat) (r : ReqInfo),
    i < l.length → l.getD i none = none →
    (liveFrom k (l.set i (some r))).length = (liveFrom k l).length + 1
  | [], _, _, _, h, _ => by simp at h
  | a :: t, k, 0, r, _, h0 => by
    simp only [List.getD_cons_zero] at h0
    subst h0
    simp [liveFrom]
  | a :: t, k, i + 1, r, h, h0 => by
    have ih := liveFrom_length_set_some_of_none t (k + 1) i r (by simpa using h) (by simpa using h0)
    cases a with
    | none => simp only [List.set_cons_succ, liveFrom]; exact ih
    | some r0 => simp only [List.set_cons_succ, liveFrom, List.length_cons]; omega

/-- Overwriting a live slot keeps the ids of the live list. -/
theorem liveFrom_map_fst_set_some : ∀ (l : List (Option ReqInfo)) (k i : Nat) (r r0 : ReqInfo),
    l.getD i none = some r0 →
    (liveFrom k (l.set i (some r))).map Prod.fst = (liveFrom k l).map Prod.fst
  | [], _, _, _, _, h => by simp at h
  | a :: t, k, 0, r, r0, h0 => by
    simp only [List.getD_cons_zero] at h0
    subst h0
    simp [liveFrom]
  | a :: t, k, i + 1, r, r0, h0 => by
    have ih := liveFrom_map_fst_set_some t (k + 1) i r r0 (by simpa using h0)
    cases a with
    | none => simp only [List.set_cons_succ, liveFrom]; exact ih
    | some r1 => simp only [List.set_cons_succ, liveFrom, List.map_cons, ih]

theorem IdPool.mem_active (p : IdPool) (j : Nat) (r : ReqInfo) :
    (j, r) ∈ p.active ↔ p.entry j = some r := by
  unfold IdPool.active IdPool.entry
  rw [mem_liveFrom]
  simp

theorem IdPool.active_release (p : IdPool) (id : Nat) :
    (p.release id).active = p.active.filter (fun e => e.1 != id) := by
  unfold IdPool.release IdPool.active
  simpa using liveFrom_set_none p.slots 0 id

/-- Releasing a live id lowers the active count by exactly one. -/
theorem IdPool.activeIdCount_release (p : IdPool) (id : Nat) (r : ReqInfo)
    (h : p.entry id = some r) :
    (p.release id).activeIdCount + 1 = p.activeIdCount := by
  unfold IdPool.activeIdCount
  rw [IdPool.active_release]
  have hmem := (IdPool.mem_active p id r).2 h
  have hs : p.active.Pairwise (fun a b => a.1 < b.1) := liveFrom_sorted _ _
  generalize p.active = L at hmem hs
  induction L with
  | nil => simp at hmem
  | cons a t ih =>
    rw [List.pairwise_cons] at hs
    by_cases ha : a.1 = id
    · have hid : t.filter (fun e => e.1 != id) = t := by
        rw [List.filter_eq_self]
        intro e he
        have := hs.1 e he
        simp; omega
      rw [List.filter_cons_of_neg (by simp [ha]), hid]
      simp
    · have hm : (id, r) ∈ t := by
        rcases List.mem_cons.1 hmem with h1 | h1
        · exact absurd (by rw [← h1]) ha
        · exact h1
      rw [List.filter_cons_of_pos (by simp [ha])]
      simp only [List.length_cons]
      have := ih hm hs.2
      omega

theorem IdPool.entry_release_self (p : IdPool) (id : Nat) : (p.release id).entry id = none := by
  unfold IdPool.release IdPool.entry
  simp only [List.getD_eq_getElem?_getD, List.getElem?_set]
  by_cases h : id < p.slots.length <;> simp [h]

theorem IdPool.entry_release_other (p : IdPool) (id j : Nat) (h : j ≠ id) :
    (p.release id).entry j = p.entry j := by
  unfold IdPool.release IdPool.entry
  exact getD_set_other _ _ _ _ _ (Ne.symm h)

/-! ## Lemmas on the task table -/

theorem TaskPool.task_setTask (w : TaskPool) (t t' : Nat) (ti : TaskInfo) :
    (w.setTask t ti).task t' = if t = t' ∧ t < w.tasks.length then ti else w.task t' := by
  unfold TaskPool.setTask TaskPool.task
  simp only [List.getD_eq_getElem?_getD, List.getElem?_set]
  by_cases h : t = t'
  · subst h
    by_cases h2 : t < w.tasks.length
    · simp [h2]
    · simp [h2, List.getElem?_eq_none (Nat.le_of_not_lt h2)]
  · simp [h]

theorem set_getD_self {α : Type} : ∀ (l : List α) (i : Nat) (d : α), l.set i (l.getD i d) = l
  | [], _, _ => rfl
  | _ :: _, 0, _ => rfl
  | a :: t, i + 1, d => by
    simp only [List.getD_cons_succ, List.set_cons_succ]
    rw [set_getD_self t i d]

theorem TaskPool.setTask_task_self (w : TaskPool) (t : Nat) : w.setTask t (w.task t) = w := by
  unfold TaskPool.setTask TaskPool.task
  rw [set_getD_self]

theorem TaskInfo.removeRequest_snd (ti : TaskInfo) (id : Nat) :
    (ti.removeRequest id).2 = { ti with requests := ti.requests.filter (fun x => x != id) } := by
  unfold TaskInfo.removeRequest
  split
  · rfl
  · rename_i h
    have : ti.requests.filter (fun x => x != id) = ti.requests := by
      rw [List.filter_eq_self]
      intro a ha
      have : a ≠ id := fun e => h (e ▸ ha)
      simpa using this
    rw [this]

theorem TaskInfo.removeRequest_of_not_mem (ti : TaskInfo) (id : Nat) (h : id ∉ ti.requests) :
    ti.removeRequest id = (false, ti) := by
  unfold TaskInfo.removeRequest
  exact if_neg h

/-- After `removeRequest(id)` the task no longer holds the id. -/
theorem TaskPool.not_mem_after_removeRequest (w : TaskPool) (t id : Nat) :
    id ∉ ((w.setTask t ((w.task t).removeRequest id).2).task t).requests := by
  rw [TaskPool.task_setTask, TaskInfo.removeRequest_snd]
  split
  · simp
  · rename_i h
    have h2 : ¬ t < w.tasks.length := fun h3 => h ⟨rfl, h3⟩
    unfold TaskPool.task
    rw [List.getD_eq_default _ _ (Nat.le_of_not_lt h2)]
    simp [default, instInhabitedTaskInfo]

theorem RequestPool.release_root (rp : RequestPool) (id : Nat) :
    (rp.release id).root = rp.root.filter (fun x => x != id) := rfl

theorem RequestPool.release_idPool (rp : RequestPool) (id : Nat) :
    (rp.release id).idPool = rp.idPool.release id := rfl

theorem cancelReqIdXmt_reqPool (env : Env) (w : TaskPool) (id : Nat) (req : ReqInfo)
    (xmt sendLastReply : Bool) :
    (cancelReqIdXmt env w id req xmt sendLastReply).reqPool = w.reqPool := by
  unfold cancelReqIdXmt
  cases xmt <;> cases sendLastReply <;> rfl

theorem cancelReqId_live (env : Env) (w : TaskPool) (id : Nat) (req : ReqInfo)
    (xmt sendLastReply : Bool) (h : w.reqPool.idPool.entry id = some req) :
    RequestPool.cancelReqId env w id xmt sendLastReply =
      (true,
        { cancelReqIdXmt env (w.setTask req.task_ ((w.task req.task_).removeRequest id).2)
            id req xmt sendLastReply with
          reqPool := w.reqPool.release id }) := by
  unfold RequestPool.cancelReqId
  rw [h]
  simp only [cancelReqIdXmt_reqPool]
  rfl

theorem TaskPool.task_emit (w : TaskPool) (e : Event) (t : Nat) : (w.emit e).task t = w.task t :=
  rfl

theorem TaskPool.tasks_length_setTask (w : TaskPool) (t : Nat) (ti : TaskInfo) :
    (w.setTask t ti).tasks.length = w.tasks.length := by
  simp [TaskPool.setTask]

theorem TaskPool.task_bumpUsmXmt (w : TaskPool) (t t' : Nat) :
    (w.bumpUsmXmt t).task t' =
      if t = t' ∧ t < w.tasks.length then
        { w.task t with statUsmXmt := (w.task t).statUsmXmt + 1 }
      else w.task t' :=
  TaskPool.task_setTask w t t' _

theorem TaskPool.task_bumpRpyRcv (w : TaskPool) (t t' : Nat) :
    (w.bumpRpyRcv t).task t' =
      if t = t' ∧ t < w.tasks.length then
        { w.task t with statRpyRcv := (w.task t).statRpyRcv + 1 }
      else w.task t' :=
  TaskPool.task_setTask w t t' _

theorem TaskPool.tasks_length_bumpUsmXmt (w : TaskPool) (t : Nat) :
    (w.bumpUsmXmt t).tasks.length = w.tasks.length := by
  simp [TaskPool.bumpUsmXmt, TaskPool.setTask]

theorem TaskPool.tasks_length_bumpRpyRcv (w : TaskPool) (t : Nat) :
    (w.bumpRpyRcv t).tasks.length = w.tasks.length := by
  simp [TaskPool.bumpRpyRcv, TaskPool.setTask]

/-- The task id and the counters of a task are not touched by `removeRequest`. -/
theorem TaskPool.task_after_removeRequest (w : TaskPool) (t id t' : Nat) :
    ((w.setTask t ((w.task t).removeRequest id).2).task t').id = (w.task t').id ∧
    ((w.setTask t ((w.task t).removeRequest id).2).task t').handle = (w.task t').handle ∧
    ((w.setTask t ((w.task t).removeRequest id).2).task t').statRpyRcv = (w.task t').statRpyRcv ∧
    ((w.setTask t ((w.task t).removeRequest id).2).task t').statUsmXmt
      = (w.task t').statUsmXmt := by
  rw [TaskPool.task_setTask, TaskInfo.removeRequest_snd]
  split
  · rename_i h
    obtain ⟨rfl, -⟩ := h
    exact ⟨rfl, rfl, rfl, rfl⟩
  · exact ⟨rfl, rfl, rfl, rfl⟩

/-- Effect of one `++statUsmXmt` pair on a task in the table. -/
theorem TaskPool.bumpUsmXmt_fields (w : TaskPool) (t : Nat) (h : t < w.tasks.length) :
    (w.bumpUsmXmt t).sent = w.sent ∧
    (w.bumpUsmXmt t).statUsmXmt = w.statUsmXmt + 1 ∧
    (w.bumpUsmXmt t).statRpyRcv = w.statRpyRcv ∧
    (w.bumpUsmXmt t).reqPool = w.reqPool ∧
    (w.bumpUsmXmt t).tasks.length = w.tasks.length ∧
    ∀ t', ((w.bumpUsmXmt t).task t').id = (w.task t').id ∧
      ((w.bumpUsmXmt t).task t').statUsmXmt
        = (w.task t').statUsmXmt + (if t' = t then 1 else 0) ∧
      ((w.bumpUsmXmt t).task t').statRpyRcv = (w.task t').statRpyRcv := by
  refine ⟨rfl, rfl, rfl, rfl, TaskPool.tasks_length_bumpUsmXmt w t, fun t' => ?_⟩
  rw [TaskPool.task_bumpUsmXmt]
  by_cases e : t = t'
  · subst e
    simp [h]
  · have e2 : ¬ t' = t := fun h2 => e h2.symm
    simp [e, e2]

/-- Effect of one `++statRpyRcv` pair on a task in the table. -/
theorem TaskPool.bumpRpyRcv_fields (w : TaskPool) (t : Nat) (h : t < w.tasks.length) :
    (w.bumpRpyRcv t).sent = w.sent ∧
    (w.bumpRpyRcv t).statUsmXmt = w.statUsmXmt ∧
    (w.bumpRpyRcv t).statRpyRcv = w.statRpyRcv + 1 ∧
    (w.bumpRpyRcv t).reqPool = w.reqPool ∧
    (w.bumpRpyRcv t).tasks.length = w.tasks.length ∧
    ∀ t', ((w.bumpRpyRcv t).task t').id = (w.task t').id ∧
      ((w.bumpRpyRcv t).task t').statUsmXmt = (w.task t').statUsmXmt ∧
      ((w.bumpRpyRcv t).task t').statRpyRcv
        = (w.task t').statRpyRcv + (if t' = t then 1 else 0) := by
  refine ⟨rfl, rfl, rfl, rfl, TaskPool.tasks_length_bumpRpyRcv w t, fun t' => ?_⟩
  rw [TaskPool.task_bumpRpyRcv]
  by_cases e : t = t'
  · subst e
    simp [h]
  · have e2 : ¬ t' = t := fun h2 => e h2.symm
    simp [e, e2]

theorem TaskPool.id_bumpRpyRcv (w : TaskPool) (t t' : Nat) :
    ((w.bumpRpyRcv t).task t').id = (w.task t').id := by
  rw [TaskPool.task_bumpRpyRcv]
  split
  · rename_i h
    obtain ⟨rfl, -⟩ := h
    rfl
  · rfl

theorem TaskPool.id_bumpUsmXmt (w : TaskPool) (t t' : Nat) :
    ((w.bumpUsmXmt t).task t').id = (w.task t').id := by
  rw [TaskPool.task_bumpUsmXmt]
  split
  · rename_i h
    obtain ⟨rfl, -⟩ := h
    rfl
  · rfl

/-- Trace of the `if (xmt)` block of `cancelReqId`. -/
theorem cancelReqIdXmt_sent (env : Env) (w : TaskPool) (id : Nat) (req : ReqInfo)
    (xmt sendLastReply : Bool) :
    (cancelReqIdXmt env w id req xmt sendLastReply).sent =
      w.sent ++
        (if xmt = true then
          Event.toNetwork ⟨.ACNET_FLG_CAN, .ACNET_SUCCESS, req.remNode_, req.lclNode_,
              req.taskName_, (w.task req.task_).id, id, env.sizeofAcnetHeader⟩ ::
            (if sendLastReply = true then
              [Event.toClient req.task_ ⟨.ACNET_FLG_RPY, .ACNET_DISCONNECTED, req.remNode_,
                req.lclNode_, req.taskName_, (w.task req.task_).id, id, env.sizeofAcnetHeader⟩]
            else [])
        else []) := by
  cases xmt <;> cases sendLastReply
  · simp [cancelReqIdXmt]
  · simp [cancelReqIdXmt]
  · simp only [cancelReqIdXmt, if_true, Bool.false_eq_true, if_false]
    rfl
  · simp only [cancelReqIdXmt, if_true]
    rw [TaskPool.id_bumpUsmXmt, TaskPool.task_emit]
    show (w.sent ++ [_]) ++ [_] = _
    simp

/-- State left by the expired branch of the sweep for a live queue head. -/
theorem sweepExpired_live (env : Env) (w : TaskPool) (id : Nat) (req : ReqInfo)
    (hlive : w.reqPool.idPool.entry id = some req) :
    (sweepExpired env w id req).reqPool = w.reqPool.release id ∧
    (sweepExpired env w id req).sent =
      w.sent ++
        [Event.toClient req.task_ ⟨.ACNET_FLG_RPY, .ACNET_TMO, req.remNode_, req.lclNode_,
            req.taskName_, (w.task req.task_).id, id, env.sizeofAcnetHeader⟩,
          Event.toNetwork ⟨.ACNET_FLG_CAN, .ACNET_SUCCESS, req.remNode_, req.lclNode_,
            req.taskName_, (w.task req.task_).id, id, env.sizeofAcnetHeader⟩] ++
        (if env.sendDataToClient w.sent req.task_ ⟨.ACNET_FLG_RPY, .ACNET_TMO, req.remNode_,
            req.lclNode_, req.taskName_, (w.task req.task_).id, id, env.sizeofAcnetHeader⟩ = true
          then [] else [Event.removeTask req.task_]) := by
  unfold sweepExpired
  simp only
  rw [cancelReqId_live env _ id req true false (by exact hlive)]
  simp only
  have hid : (((((w.emit (Event.toClient req.task_ ⟨.ACNET_FLG_RPY, .ACNET_TMO, req.remNode_,
      req.lclNode_, req.taskName_, (w.task req.task_).id, id, env.sizeofAcnetHeader⟩)).bumpRpyRcv
      req.task_).setTask req.task_
        (((((w.emit (Event.toClient req.task_ ⟨.ACNET_FLG_RPY, .ACNET_TMO, req.remNode_,
      req.lclNode_, req.taskName_, (w.task req.task_).id, id, env.sizeofAcnetHeader⟩)).bumpRpyRcv
      req.task_)).task req.task_).removeRequest id).2).task req.task_).id)
      = (w.task req.task_).id := by
    rw [(TaskPool.task_after_removeRequest _ _ _ _).1, TaskPool.id_bumpRpyRcv, TaskPool.task_emit]
  cases hs : env.sendDataToClient w.sent req.task_ ⟨.ACNET_FLG_RPY, .ACNET_TMO, req.remNode_,
      req.lclNode_, req.taskName_, (w.task req.task_).id, id, env.sizeofAcnetHeader⟩
  · simp only [Bool.not_false, if_true, Bool.false_eq_true, if_false]
    refine ⟨rfl, ?_⟩
    show (cancelReqIdXmt _ _ _ _ _ _).sent ++ [_] = _
    rw [cancelReqIdXmt_sent, hid]
    show ((w.sent ++ [_]) ++ _) ++ [_] = _
    simp
  · simp only [Bool.not_true, Bool.false_eq_true, if_false, if_true]
    refine ⟨rfl, ?_⟩
    show (cancelReqIdXmt _ _ _ _ _ _).sent = _
    rw [cancelReqIdXmt_sent, hid]
    show ((w.sent ++ [_]) ++ _) = _
    simp

theorem sweepLoop_empty (env : Env) (fuel : Nat) (w : TaskPool) (h : w.reqPool.root = []) :
    sweepLoop env (fuel + 1) w = some (-1, w) := by
  unfold sweepLoop RequestPool.oldest
  rw [h]
  rfl

theorem sweepLoop_expired (env : Env) (fuel : Nat) (w : TaskPool) (id : Nat) (rest : List Nat)
    (req : ReqInfo) (hq : w.reqPool.root = id :: rest)
    (hlive : w.reqPool.idPool.entry id = some req)
    (hexp : (env.expiration req).le env.now = true) :
    sweepLoop env (fuel + 1) w = sweepLoop env fuel (sweepExpired env w id req) := by
  conv_lhs => unfold sweepLoop
  simp only [RequestPool.oldest, hq, List.head?_cons, hlive, hexp, if_true]

theorem sweepLoop_pending (env : Env) (fuel : Nat) (w : TaskPool) (id : Nat) (rest : List Nat)
    (req : ReqInfo) (hq : w.reqPool.root = id :: rest)
    (hlive : w.reqPool.idPool.entry id = some req)
    (hexp : (env.expiration req).le env.now = false) :
    sweepLoop env (fuel + 1) w = some (toInt32 (diffInMs (env.expiration req) env.now), w) := by
  conv_lhs => unfold sweepLoop
  simp only [RequestPool.oldest, hq, List.head?_cons, hlive, hexp, Bool.false_eq_true, if_false]

/-- A count that fits the 32-bit `int` is returned as it is. -/
theorem toInt32_of_fits (x : Int) (h0 : 0 ≤ x) (h1 : x < 2147483648) : toInt32 x = x := by
  unfold toInt32
  omega

/-- A count of 2^32 - 1 ms does not fit: it is returned as -1. -/
theorem toInt32_wraps : toInt32 4294967295 = -1 := by
  decide

/-- A time strictly after `b` is not less than zero milliseconds away from it. -/
theorem diffInMs_nonneg (a b : timeval) (ha : a.tv_usec < 1000000) (hb : b.tv_usec < 1000000)
    (h : a.le b = false) : 0 ≤ diffInMs a b := by
  unfold timeval.le at h
  simp only [Bool.or_eq_false_iff, decide_eq_false_iff_not, Bool.and_eq_false_imp, beq_iff_eq,
    decide_eq_true_eq] at h
  obtain ⟨h1, h2⟩ := h
  unfold diffInMs
  rcases Nat.lt_or_ge b.tv_sec a.tv_sec with hlt | hge
  · have hx : (b.tv_usec : Int) - (a.tv_usec : Int) < 1000000 := by omega
    by_cases hs : (a.tv_usec : Int) - (b.tv_usec : Int) ≥ 0
    · have := Int.tdiv_nonneg hs (by decide : (0 : Int) ≤ 1000)
      have h3 : (0 : Int) ≤ ((a.tv_sec : Int) - (b.tv_sec : Int)) * 1000 := by
        apply Int.mul_nonneg <;> omega
      omega
    · have hneg : (a.tv_usec : Int) - (b.tv_usec : Int) = -((b.tv_usec : Int) - (a.tv_usec : Int)) := by
        omega
      rw [hneg, Int.neg_tdiv, Int.tdiv_eq_ediv (by omega) (by decide)]
      have h3 : (1 : Int) * 1000 ≤ ((a.tv_sec : Int) - (b.tv_sec : Int)) * 1000 := by
        apply Int.mul_le_mul_of_nonneg_right <;> omega
      omega
  · have heq : a.tv_sec = b.tv_sec := by omega
    have h4 := h2 heq
    have hs : (a.tv_usec : Int) - (b.tv_usec : Int) ≥ 0 := by omega
    have := Int.tdiv_nonneg hs (by decide : (0 : Int) ≤ 1000)
    rw [heq]
    omega

/-! ## Lemmas on iteration with `IdPool::next` -/

/-- With the live list split as `pre ++ rest` and the iterator at the last entry
of `pre` (or absent when `pre` is empty), `next` yields the head of `rest`. -/
theorem IdPool.next_of_split (p : IdPool) (pre rest : List (Nat × ReqInfo))
    (h : p.active = pre ++ rest) :
    p.next (pre.getLast?.map Prod.fst) = rest.head? := by
  have hs : p.active.Pairwise (fun a b => a.1 < b.1) := liveFrom_sorted _ _
  rw [h, List.pairwise_append] at hs
  obtain ⟨hp, -, hpr⟩ := hs
  rcases List.eq_nil_or_concat pre with hnil | ⟨pre0, l, hcat⟩
  · subst hnil
    simp only [List.getLast?_nil, Option.map_none', IdPool.next, h, List.nil_append]
  · rw [List.concat_eq_append] at hcat
    subst hcat
    rw [List.getLast?_concat]
    simp only [Option.map_some', IdPool.next, h]
    have hnone : (pre0 ++ [l]).find? (fun e => decide (l.1 < e.1)) = none := by
      rw [List.find?_eq_none]
      intro x hx
      simp only [decide_eq_true_eq, Nat.not_lt]
      rw [List.pairwise_append] at hp
      rcases List.mem_append.1 hx with hx | hx
      · exact Nat.le_of_lt (hp.2.2 x hx l (List.mem_singleton_self l))
      · rw [List.mem_singleton.1 hx]
    rw [List.find?_append, hnone, Option.none_or]
    cases rest with
    | nil => rfl
    | cons e r =>
      have : l.1 < e.1 := hpr l (by simp) e (by simp)
      simp [this]

theorem find?_eq_head?_filter {α : Type} (q : α → Bool) :
    ∀ l : List α, l.find? q = (l.filter q).head?
  | [] => rfl
  | a :: t => by
    by_cases h : q a = true
    · rw [List.find?_cons_of_pos _ h, List.filter_cons_of_pos h]
      rfl
    · rw [List.find?_cons_of_neg _ h, List.filter_cons_of_neg h]
      exact find?_eq_head?_filter q t

/-- The loop of `cancelReqToNode` stops at the first live entry addressed to
`tn` and runs the hit body there; without such an entry the state is returned
as it is. -/
theorem cancelReqToNodeLoop_eq (env : Env) (tn : Nat) (w : TaskPool) :
    ∀ (rest pre : List (Nat × ReqInfo)) (fuel : Nat),
      w.reqPool.idPool.active = pre ++ rest → rest.length < fuel →
      cancelReqToNodeLoop env tn fuel (pre.getLast?.map Prod.fst) w =
        some (match rest.find? (fun e => decide (e.2.remNode_ = tn)) with
          | none => w
          | some e => cancelReqToNodeHit env w e.1 e.2)
  | [], pre, fuel, h, hf => by
    obtain ⟨f, rfl⟩ : ∃ f, fuel = f + 1 := ⟨fuel - 1, by omega⟩
    unfold cancelReqToNodeLoop
    rw [IdPool.next_of_split _ pre [] h]
    rfl
  | e :: rest, pre, fuel, h, hf => by
    obtain ⟨f, rfl⟩ : ∃ f, fuel = f + 1 := ⟨fuel - 1, by simp at hf; omega⟩
    unfold cancelReqToNodeLoop
    rw [IdPool.next_of_split _ pre (e :: rest) h]
    simp only [List.head?_cons]
    by_cases hm : e.2.remNode_ = tn
    · simp [hm]
    · have ih := cancelReqToNodeLoop_eq env tn w rest (pre ++ [e]) f (by simpa using h)
        (by simpa using hf)
      rw [List.getLast?_concat] at ih
      simp only [Option.map_some'] at ih
      simp only [hm, if_false, ih, List.find?, decide_False]

theorem cancelReqToNode_eq (env : Env) (w : TaskPool) (tn : Nat) :
    RequestPool.cancelReqToNode env w tn =
      some (match (w.reqPool.idPool.active.filter (fun e => decide (e.2.remNode_ = tn))).head? with
        | none => w
        | some e => cancelReqToNodeHit env w e.1 e.2) := by
  unfold RequestPool.cancelReqToNode
  have := cancelReqToNodeLoop_eq env tn w w.reqPool.idPool.active [] _ rfl
    (Nat.lt_succ_of_le (liveFrom_length_le w.reqPool.idPool.slots 0))
  rw [← find?_eq_head?_filter]
  exact this

/-- What the fill loop does with one live entry. -/
theorem fillLoop_eq (env : Env) (w : TaskPool) (subType : Nat) (data : List Nat) (n : Nat) :
    ∀ (rest pre : List (Nat × ReqInfo)) (fuel : Nat) (rl : AcnetReqList),
      w.reqPool.idPool.active = pre ++ rest → rest.length < fuel →
      fillLoop env w subType data n fuel (pre.getLast?.map Prod.fst) rl =
        some ⟨rl.total +
            (rest.filter (fun e =>
              decide (n = 0 ∨ reqInList env w e.2 subType data n = true))).length,
          rl.ids ++
            (rest.filter (fun e =>
              decide (n = 0 ∨ reqInList env w e.2 subType data n = true))).map
                (fun e => env.htoas e.1)⟩
  | [], pre, fuel, rl, h, hf => by
    obtain ⟨f, rfl⟩ : ∃ f, fuel = f + 1 := ⟨fuel - 1, by omega⟩
    unfold fillLoop
    rw [IdPool.next_of_split _ pre [] h]
    simp
  | e :: rest, pre, fuel, rl, h, hf => by
    obtain ⟨f, rfl⟩ : ∃ f, fuel = f + 1 := ⟨fuel - 1, by simp at hf; omega⟩
    unfold fillLoop
    rw [IdPool.next_of_split _ pre (e :: rest) h]
    simp only [List.head?_cons]
    have ih := fun rl2 => fillLoop_eq env w subType data n rest (pre ++ [e]) f rl2
      (by simpa using h) (by simpa using hf)
    rw [List.getLast?_concat] at ih
    simp only [Option.map_some'] at ih
    rw [ih]
    by_cases hm : n = 0 ∨ reqInList env w e.2 subType data n = true
    · rw [if_pos hm, List.filter_cons_of_pos (by simpa using hm)]
      simp only [AcnetReqList.put, List.length_cons, List.map_cons, List.append_assoc,
        List.singleton_append, Option.some.injEq, AcnetReqList.mk.injEq, and_true]
      omega
    · rw [if_neg hm, List.filter_cons_of_neg (by simpa using hm)]

theorem fillActiveRequests_eq (env : Env) (w : TaskPool) (subType : Nat) (data : List Nat)
    (n : Nat) :
    RequestPool.fillActiveRequests env w subType data n =
      some ⟨(w.reqPool.idPool.active.filter (fun e =>
              decide (n = 0 ∨ reqInList env w e.2 subType data n = true))).length,
          (w.reqPool.idPool.active.filter (fun e =>
              decide (n = 0 ∨ reqInList env w e.2 subType data n = true))).map
                (fun e => env.htoas e.1)⟩ := by
  unfold RequestPool.fillActiveRequests
  have := fillLoop_eq env w subType data n w.reqPool.idPool.active [] _ ⟨0, []⟩ rfl
    (Nat.lt_succ_of_le (liveFrom_length_le w.reqPool.idPool.slots 0))
  simpa using this

/-- State left by the hit body of `cancelReqToNode`. -/
theorem cancelReqToNodeHit_fields (env : Env) (w : TaskPool) (id : Nat) (req : ReqInfo) :
    (cancelReqToNodeHit env w id req).reqPool = w.reqPool.release id ∧
    (cancelReqToNodeHit env w id req).sent =
      w.sent ++
        [Event.toClient req.task_ ⟨.ACNET_FLG_RPY, .ACNET_DISCONNECTED, req.remNode_,
          req.lclNode_, req.taskName_, (w.task req.task_).id, id, env.sizeofAcnetHeader⟩] ++
        (if env.sendDataToClient w.sent req.task_ ⟨.ACNET_FLG_RPY, .ACNET_DISCONNECTED,
            req.remNode_, req.lclNode_, req.taskName_, (w.task req.task_).id, id,
            env.sizeofAcnetHeader⟩ = true
          then [] else [Event.removeTask req.task_]) ∧
    id ∉ ((cancelReqToNodeHit env w id req).task req.task_).requests := by
  have hnot := TaskPool.not_mem_after_removeRequest
    ((w.emit (Event.toClient req.task_ ⟨.ACNET_FLG_RPY, .ACNET_DISCONNECTED, req.remNode_,
      req.lclNode_, req.taskName_, (w.task req.task_).id, id,
      env.sizeofAcnetHeader⟩)).bumpRpyRcv req.task_) req.task_ id
  unfold cancelReqToNodeHit
  simp only
  cases hs : env.sendDataToClient w.sent req.task_ ⟨.ACNET_FLG_RPY, .ACNET_DISCONNECTED,
      req.remNode_, req.lclNode_, req.taskName_, (w.task req.task_).id, id,
      env.sizeofAcnetHeader⟩
  · simp only [Bool.not_false, if_true, Bool.false_eq_true, if_false]
    refine ⟨rfl, ?_, hnot⟩
    show (w.sent ++ [_]) ++ [_] = _
    rfl
  · simp only [Bool.not_true, Bool.false_eq_true, if_false, if_true]
    refine ⟨rfl, ?_, hnot⟩
    show (w.sent ++ [_]) = _
    simp

/-! ## Lemmas on `reqInList` -/

theorem getD_tail {α : Type} (l : List α) (i : Nat) (d : α) :
    l.tail.getD i d = l.getD (i + 1) d := by
  cases l <;> simp

theorem headD_eq_getD {α : Type} (l : List α) (d : α) : l.headD d = l.getD 0 d := by
  cases l <;> simp

/-- Case 0 of `reqInList` matches exactly when one of the first `n` words decodes
to the remote node of the request. -/
theorem reqInList0_iff (env : Env) (req : ReqInfo) :
    ∀ (n : Nat) (data : List Nat),
      reqInList0 env req data n = true ↔
        ∃ i, i < n ∧ req.remNode_ = env.atohs (data.getD i 0)
  | 0, data => by simp [reqInList0]
  | n + 1, data => by
    unfold reqInList0
    have ih := reqInList0_iff env req n data.tail
    by_cases h : req.remNode_ = env.atohs (data.headD 0)
    · rw [if_pos h]
      simp only [true_iff]
      exact ⟨0, Nat.succ_pos n, by rw [← headD_eq_getD]; exact h⟩
    · rw [if_neg h, ih]
      constructor
      · rintro ⟨i, hi, he⟩
        exact ⟨i + 1, by omega, by rw [← getD_tail]; exact he⟩
      · rintro ⟨i, hi, he⟩
        cases i with
        | zero => exact absurd (by rw [headD_eq_getD]; exact he) h
        | succ j => exact ⟨j, by omega, by rw [getD_tail]; exact he⟩

/-- Cases 1 and 2 of `reqInList` match exactly when one of the complete word
pairs among the first `n` words decodes to the handle. -/
theorem reqInList32_iff (env : Env) (handle : Nat) :
    ∀ (n : Nat) (data : List Nat),
      reqInList32 env handle data n = true ↔
        ∃ k, 2 * k + 1 < n ∧
          handle = env.atohl (env.load32 (data.getD (2 * k) 0) (data.getD (2 * k + 1) 0))
  | 0, data => by simp [reqInList32]
  | 1, data => by simp [reqInList32]
  | n + 2, data => by
    unfold reqInList32
    have ih := reqInList32_iff env handle n data.tail.tail
    by_cases h : handle = env.atohl (env.load32 (data.headD 0) (data.tail.headD 0))
    · rw [if_pos h]
      simp only [true_iff]
      refine ⟨0, by omega, ?_⟩
      rw [headD_eq_getD, headD_eq_getD, getD_tail] at h
      exact h
    · rw [if_neg h, ih]
      constructor
      · rintro ⟨k, hk, he⟩
        refine ⟨k + 1, by omega, ?_⟩
        rw [getD_tail, getD_tail, getD_tail, getD_tail] at he
        have e1 : 2 * (k + 1) = 2 * k + 1 + 1 := by omega
        rw [e1]
        exact he
      · rintro ⟨k, hk, he⟩
        cases k with
        | zero =>
          refine absurd ?_ h
          rw [headD_eq_getD, headD_eq_getD, getD_tail]
          exact he
        | succ j =>
          refine ⟨j, by omega, ?_⟩
          rw [getD_tail, getD_tail, getD_tail, getD_tail]
          have e1 : 2 * (j + 1) = 2 * j + 1 + 1 := by omega
          rw [e1] at he
          exact he

theorem bswap16_bswap16 (x : Nat) (h : x < 2 ^ 16) : bswap16 (bswap16 x) = x := by
  unfold bswap16
  have hx := Nat.div_add_mod x 256
  have ha : x % 256 < 256 := Nat.mod_lt _ (by decide)
  have hb : x / 256 < 256 := by omega
  generalize x % 256 = a at hx ha ⊢
  generalize x / 256 = b at hx hb ⊢
  have h1 : b % 256 = b := Nat.mod_eq_of_lt hb
  have h2 : (a * 256 + b) % 256 = b := by omega
  have h3 : (a * 256 + b) / 256 = a := by omega
  have h4 : a % 256 = a := Nat.mod_eq_of_lt ha
  rw [h1, h2, h3, h4]
  omega

theorem bswap32_bswap32 (x : Nat) (h : x < 2 ^ 32) : bswap32 (bswap32 x) = x := by
  unfold bswap32
  have ha : x % 256 < 256 := Nat.mod_lt _ (by decide)
  have hb : x / 256 % 256 < 256 := Nat.mod_lt _ (by decide)
  have hc : x / 65536 % 256 < 256 := Nat.mod_lt _ (by decide)
  have hd : x / 16777216 % 256 < 256 := Nat.mod_lt _ (by decide)
  have hx : x = x / 16777216 % 256 * 16777216 + x / 65536 % 256 * 65536
      + x / 256 % 256 * 256 + x % 256 := by omega
  generalize x % 256 = a at hx ha ⊢
  generalize x / 256 % 256 = b at hx hb ⊢
  generalize x / 65536 % 256 = c at hx hc ⊢
  generalize x / 16777216 % 256 = d at hx hd ⊢
  have e2 : (a * 16777216 + b * 65536 + c * 256 + d) / 256 = a * 65536 + b * 256 + c := by
    clear hx; omega
  have e3 : (a * 16777216 + b * 65536 + c * 256 + d) / 65536 = a * 256 + b := by
    clear hx e2; omega
  have e4 : (a * 16777216 + b * 65536 + c * 256 + d) / 16777216 = a := by
    clear hx e2 e3; omega
  have h1 : (a * 16777216 + b * 65536 + c * 256 + d) % 256 = d := by
    clear hx e2 e3 e4; omega
  have h2 : (a * 65536 + b * 256 + c) % 256 = c := by
    clear hx e2 e3 e4 h1; omega
  have h3 : (a * 256 + b) % 256 = b := by
    clear hx e2 e3 e4 h1 h2; omega
  have h4 : a % 256 = a := Nat.mod_eq_of_lt ha
  rw [e2, e3, e4, h1, h2, h3, h4]
  omega

/-- After `cancelReqId(id, ...)` the id has no live record, whether or not it had
one before. -/
theorem cancelReqId_entry_none (env : Env) (w : TaskPool) (id : Nat) (xmt sendLastReply : Bool) :
    (RequestPool.cancelReqId env w id xmt sendLastReply).2.reqPool.idPool.entry id = none := by
  cases h : w.reqPool.idPool.entry id with
  | none =>
    unfold RequestPool.cancelReqId
    rw [h]
    exact h
  | some req =>
    rw [cancelReqId_live env w id req xmt sendLastReply h]
    exact IdPool.entry_release_self _ _

theorem fillRequestDetail_none (env : Env) (w : TaskPool) (id : Nat) (buf : reqDetail)
    (h : w.reqPool.idPool.entry (env.atohs id) = none) :
    RequestPool.fillRequestDetail env w id buf = (false, buf) := by
  unfold RequestPool.fillRequestDetail
  rw [h]

theorem fillRequestDetail_some (env : Env) (w : TaskPool) (id : Nat) (buf : reqDetail)
    (req : ReqInfo) (h : w.reqPool.idPool.entry (env.atohs id) = some req) :
    RequestPool.fillRequestDetail env w id buf =
      (true,
        { id := env.atohs id,
          remNode := env.htoas req.remNode_,
          remName := env.htoal req.taskName_,
          lclName := env.htoal (w.task req.task_).handle,
          initTime := env.htoal (req.initTime_ % 2 ^ 32),
          lastUpdate := env.htoal (req.lastUpdate.tv_sec % 2 ^ 32) }) := by
  unfold RequestPool.fillRequestDetail
  rw [h]

/-- The record that `RequestPool::alloc` leaves in the slot it claimed, on the
success and on the failure path. -/
theorem alloc_entry_fields (env : Env) (w : TaskPool)
    (task taskName lclNode remNode flags tmo id : Nat) (p1 : IdPool)
    (hslot : w.reqPool.idPool.alloc = some (id, p1)) :
    ∃ r, (RequestPool.alloc env w task taskName lclNode remNode flags tmo).2.reqPool.idPool.entry id
        = some r ∧
      r.task_ = task ∧ r.taskName_ = taskName ∧ r.lclNode_ = lclNode ∧ r.remNode_ = remNode ∧
      r.flags = flags ∧ r.tmoMs = min (max tmo 400) (MAX_TIMEOUT_MS env) ∧
      r.initTime_ = env.now.tv_sec ∧
      r.mcast = (match env.getAddr remNode with
        | none => false
        | some s_addr => IN_MULTICAST (env.htonl s_addr)) := by
  obtain ⟨hlt, -, hs⟩ := IdPool.alloc_some hslot
  have hlt1 : id < p1.slots.length := by rw [hs]; simpa using hlt
  unfold RequestPool.alloc
  rw [hslot]
  simp only
  split
  · simp only [RequestPool.update, TaskPool.setTask, entry_setEntry_self _ _ _ hlt1]
    refine ⟨_, entry_setEntry_self _ _ _ ?_, rfl, rfl, rfl, rfl, rfl, rfl, rfl, rfl⟩
    simpa [IdPool.setEntry] using hlt1
  · simp only [free, TaskPool.setTask]
    exact ⟨_, entry_setEntry_self _ _ _ hlt1, rfl, rfl, rfl, rfl, rfl, rfl, rfl, rfl⟩

/-- On `sampleSameNode`, where both requests go to node 2, one call releases
request 0 only. -/
theorem cancelReqToNode_sampleSameNode :
    (RequestPool.cancelReqToNode sampleEnv sampleSameNode 2).map (fun w => w.reqPool)
      = some ⟨⟨[none, some sampleReq], 2⟩, [1]⟩ := by
  decide

/-! ## Lemmas on the sweep -/

theorem takeWhile_congr_mem {α : Type} (p q : α → Bool) :
    ∀ l : List α, (∀ x ∈ l, p x = q x) → l.takeWhile p = l.takeWhile q
  | [], _ => rfl
  | a :: t, h => by
    rw [List.takeWhile_cons, List.takeWhile_cons, h a (List.mem_cons_self _ _),
      takeWhile_congr_mem p q t (fun x hx => h x (List.mem_cons_of_mem _ hx))]

theorem dropWhile_congr_mem {α : Type} (p q : α → Bool) :
    ∀ l : List α, (∀ x ∈ l, p x = q x) → l.dropWhile p = l.dropWhile q
  | [], _ => rfl
  | a :: t, h => by
    rw [List.dropWhile_cons, List.dropWhile_cons, h a (List.mem_cons_self _ _),
      dropWhile_congr_mem p q t (fun x hx => h x (List.mem_cons_of_mem _ hx))]

theorem filter_ne_of_not_mem (id : Nat) (l : List Nat) (h : id ∉ l) :
    l.filter (fun x => x != id) = l := by
  rw [List.filter_eq_self]
  intro a ha
  have : a ≠ id := fun e => h (e ▸ ha)
  simpa using this

theorem expired_congr (env : Env) (w w1 : TaskPool) (j : Nat)
    (h : w1.reqPool.idPool.entry j = w.reqPool.idPool.entry j) :
    expired env w1 j = expired env w j := by
  unfold expired
  rw [h]

theorem expired_of_live (env : Env) (w : TaskPool) (id : Nat) (req : ReqInfo)
    (h : w.reqPool.idPool.entry id = some req) :
    expired env w id = (env.expiration req).le env.now := by
  unfold expired
  rw [h]

/-- The expired branch of the sweep adds exactly one TMO reply, for the id it
handles. -/
theorem tmoReplyIds_sweepExpired (env : Env) (w : TaskPool) (id : Nat) (req : ReqInfo)
    (hlive : w.reqPool.idPool.entry id = some req) :
    tmoReplyIds (sweepExpired env w id req).sent = tmoReplyIds w.sent ++ [id] := by
  rw [(sweepExpired_live env w id req hlive).2]
  unfold tmoReplyIds
  rw [List.filterMap_append, List.filterMap_append]
  have h1 : List.filterMap tmoReplyId
      [Event.toClient req.task_ ⟨.ACNET_FLG_RPY, .ACNET_TMO, req.remNode_, req.lclNode_,
          req.taskName_, (w.task req.task_).id, id, env.sizeofAcnetHeader⟩,
        Event.toNetwork ⟨.ACNET_FLG_CAN, .ACNET_SUCCESS, req.remNode_, req.lclNode_,
          req.taskName_, (w.task req.task_).id, id, env.sizeofAcnetHeader⟩] = [id] := rfl
  rw [h1]
  split <;> simp [tmoReplyId]

/-- The sweep loop on a duplicate-free queue of live records: it ends, having
run the expired branch on the longest expired prefix of the queue, oldest
first. -/
theorem sweepLoop_prefix (env : Env) (hn : env.now.tv_usec < 1000000)
    (he : ∀ r, (env.expiration r).tv_usec < 1000000) :
    ∀ (q : List Nat) (w : TaskPool) (fuel : Nat),
      w.reqPool.root = q → q.Nodup →
      (∀ id ∈ q, ∃ r, w.reqPool.idPool.entry id = some r) →
      (∀ id ∈ q, ∀ r, w.reqPool.idPool.entry id = some r →
        diffInMs (env.expiration r) env.now < 2147483648) →
      q.length < fuel →
      ∃ ret w', sweepLoop env fuel w = some (ret, w') ∧
        w'.reqPool.root = q.dropWhile (expired env w) ∧
        w' = (q.takeWhile (expired env w)).foldl
          (fun a id => sweepExpired env a id ((w.reqPool.idPool.entry id).getD default)) w ∧
        (∀ j ∈ q.takeWhile (expired env w), w'.reqPool.idPool.entry j = none) ∧
        (∀ j, j ∉ q.takeWhile (expired env w) →
          w'.reqPool.idPool.entry j = w.reqPool.idPool.entry j) ∧
        tmoReplyIds w'.sent = tmoReplyIds w.sent ++ q.takeWhile (expired env w) ∧
        (ret = -1 ↔ w'.reqPool.root = [])
  | [], w, fuel, hq, _, _, _, hf => by
    obtain ⟨f, rfl⟩ : ∃ f, fuel = f + 1 := ⟨fuel - 1, by omega⟩
    refine ⟨-1, w, sweepLoop_empty env f w hq, ?_, rfl, ?_, fun _ _ => rfl, ?_, ?_⟩
    · simpa using hq
    · intro j hj
      simp at hj
    · simp
    · simp [hq]
  | id :: rest, w, fuel, hq, hnd, hsync, hfit, hf => by
    obtain ⟨f, rfl⟩ : ∃ f, fuel = f + 1 := ⟨fuel - 1, by simp at hf; omega⟩
    obtain ⟨r, hr⟩ := hsync id (List.mem_cons_self _ _)
    have hidrest : id ∉ rest := (List.nodup_cons.1 hnd).1
    cases hexp : (env.expiration r).le env.now with
    | false =>
      have hex : expired env w id = false := by rw [expired_of_live env w id r hr, hexp]
      have hnn := diffInMs_nonneg _ _ (he r) hn hexp
      have hlt := hfit id (List.mem_cons_self _ _) r hr
      have hret := toInt32_of_fits _ hnn hlt
      refine ⟨toInt32 (diffInMs (env.expiration r) env.now), w,
        sweepLoop_pending env f w id rest r hq hr hexp, ?_, ?_, ?_, ?_, ?_, ?_⟩
      · rw [List.dropWhile_cons_of_neg (by simp [hex])]
        exact hq
      · rw [List.takeWhile_cons_of_neg (by simp [hex])]
        rfl
      · rw [List.takeWhile_cons_of_neg (by simp [hex])]
        intro j hj
        simp at hj
      · intro j _
        rfl
      · rw [List.takeWhile_cons_of_neg (by simp [hex])]
        simp
      · rw [hq]
        constructor
        · intro h
          omega
        · intro h
          exact absurd h (by simp)
    | true =>
      have hex : expired env w id = true := by rw [expired_of_live env w id r hr, hexp]
      obtain ⟨hrp, -⟩ := sweepExpired_live env w id r hr
      have hroot1 : (sweepExpired env w id r).reqPool.root = rest := by
        rw [hrp, RequestPool.release_root, hq, List.filter_cons_of_neg (by simp)]
        exact filter_ne_of_not_mem id rest hidrest
      have hent1 : ∀ j, j ≠ id →
          (sweepExpired env w id r).reqPool.idPool.entry j = w.reqPool.idPool.entry j := by
        intro j hj
        rw [hrp]
        exact IdPool.entry_release_other _ _ _ hj
      have hent1id : (sweepExpired env w id r).reqPool.idPool.entry id = none := by
        rw [hrp]
        exact IdPool.entry_release_self _ _
      have hne : ∀ j ∈ rest, j ≠ id := fun j hj e => hidrest (e ▸ hj)
      have hsync1 : ∀ j ∈ rest, ∃ r1, (sweepExpired env w id r).reqPool.idPool.entry j
          = some r1 := by
        intro j hj
        rw [hent1 j (hne j hj)]
        exact hsync j (List.mem_cons_of_mem _ hj)
      obtain ⟨ret, w', hrun, h1, h2, h3, h4, h5, h6⟩ :=
        sweepLoop_prefix env hn he rest (sweepExpired env w id r) f hroot1
          (List.nodup_cons.1 hnd).2 hsync1
          (fun j hj r1 hr1 =>
            hfit j (List.mem_cons_of_mem _ hj) r1 (by rw [← hent1 j (hne j hj)]; exact hr1))
          (by simpa using hf)
      have hcongr : ∀ j ∈ rest, expired env (sweepExpired env w id r) j = expired env w j :=
        fun j hj => expired_congr env w _ j (hent1 j (hne j hj))
      rw [takeWhile_congr_mem _ _ rest hcongr] at h2 h3 h4 h5
      rw [dropWhile_congr_mem _ _ rest hcongr] at h1
      have htw : ∀ j ∈ rest.takeWhile (expired env w), j ∈ rest :=
        fun j hj => (List.takeWhile_sublist _).subset hj
      refine ⟨ret, w', ?_, ?_, ?_, ?_, ?_, ?_, h6⟩
      · rw [sweepLoop_expired env f w id rest r hq hr hexp]
        exact hrun
      · rw [List.dropWhile_cons_of_pos hex]
        exact h1
      · rw [List.takeWhile_cons_of_pos hex, List.foldl_cons]
        simp only [hr, Option.getD_some]
        rw [h2]
        apply List.foldl_ext
        intro a j hj
        rw [hent1 j (hne j (htw j hj))]
      · rw [List.takeWhile_cons_of_pos hex]
        intro j hj
        rcases List.mem_cons.1 hj with hj | hj
        · subst hj
          rw [h4 j (fun hm => hidrest (htw j hm))]
          exact hent1id
        · exact h3 j hj
      · rw [List.takeWhile_cons_of_pos hex]
        intro j hj
        have hj1 : j ≠ id := fun e => hj (e ▸ List.mem_cons_self _ _)
        have hj2 : j ∉ rest.takeWhile (expired env w) :=
          fun hm => hj (List.mem_cons_of_mem _ hm)
        rw [h4 j hj2]
        exact hent1 j hj1
      · rw [List.takeWhile_cons_of_pos hex, h5, tmoReplyIds_sweepExpired env w id r hr]
        simp

/-! ## Lemmas on the queue invariant -/

theorem RequestPool.Sync_release (rp : RequestPool) (id : Nat) (h : rp.Sync) :
    (rp.release id).Sync := by
  intro j
  rw [RequestPool.release_root, RequestPool.release_idPool, List.mem_filter]
  by_cases hj : j = id
  · subst hj
    rw [IdPool.entry_release_self]
    simp
  · rw [IdPool.entry_release_other _ _ _ hj, ← h j]
    simp [hj]

theorem cancelReqId_reqPool (env : Env) (w : TaskPool) (id : Nat) (xmt sendLastReply : Bool) :
    (RequestPool.cancelReqId env w id xmt sendLastReply).2.reqPool = w.reqPool ∨
    (RequestPool.cancelReqId env w id xmt sendLastReply).2.reqPool = w.reqPool.release id := by
  cases h : w.reqPool.idPool.entry id with
  | none =>
    left
    unfold RequestPool.cancelReqId
    rw [h]
  | some req =>
    right
    rw [cancelReqId_live env w id req xmt sendLastReply h]

theorem cancelReqToNode_reqPool (env : Env) (w : TaskPool) (n : Nat) :
    ∃ w', RequestPool.cancelReqToNode env w n = some w' ∧
      (w'.reqPool = w.reqPool ∨ ∃ id, w'.reqPool = w.reqPool.release id) := by
  rw [cancelReqToNode_eq]
  cases (w.reqPool.idPool.active.filter (fun e => decide (e.2.remNode_ = n))).head? with
  | none => exact ⟨w, rfl, Or.inl rfl⟩
  | some e => exact ⟨_, rfl, Or.inr ⟨e.1, (cancelReqToNodeHit_fields env w e.1 e.2).1⟩⟩

/-- The sweep loop ends on every state whose queue and id pool are in sync, and
leaves them in sync. -/
theorem sweepLoop_sync (env : Env) :
    ∀ (k : Nat) (w : TaskPool) (fuel : Nat),
      w.reqPool.root.length ≤ k → w.reqPool.Sync → k < fuel →
      ∃ ret w', sweepLoop env fuel w = some (ret, w') ∧ w'.reqPool.Sync
  | k, w, fuel, hk, hs, hf => by
    obtain ⟨f, rfl⟩ : ∃ f, fuel = f + 1 := ⟨fuel - 1, by omega⟩
    cases hq : w.reqPool.root with
    | nil => exact ⟨-1, w, sweepLoop_empty env f w hq, hs⟩
    | cons id rest =>
      obtain ⟨r, hr⟩ := (hs id).1 (by rw [hq]; exact List.mem_cons_self _ _)
      cases hexp : (env.expiration r).le env.now with
      | false => exact ⟨_, w, sweepLoop_pending env f w id rest r hq hr hexp, hs⟩
      | true =>
        obtain ⟨hrp, -⟩ := sweepExpired_live env w id r hr
        have hlen : (sweepExpired env w id r).reqPool.root.length ≤ k - 1 := by
          rw [hrp, RequestPool.release_root, hq, List.filter_cons_of_neg (by simp)]
          have h1 := List.length_filter_le (fun x => x != id) rest
          rw [hq] at hk
          simp only [List.length_cons] at hk
          omega
        have hk0 : 0 < k := by
          rw [hq] at hk
          simp only [List.length_cons] at hk
          omega
        have hs1 : (sweepExpired env w id r).reqPool.Sync := by
          rw [hrp]
          exact RequestPool.Sync_release _ _ hs
        obtain ⟨ret, w', hrun, hs'⟩ :=
          sweepLoop_sync env (k - 1) (sweepExpired env w id r) f hlen hs1 (by omega)
        exact ⟨ret, w', by rw [sweepLoop_expired env f w id rest r hq hr hexp]; exact hrun, hs'⟩
termination_by k => k
decreasing_by omega

/-- Request pool left by `RequestPool::alloc` once a slot has been claimed:
which ids are live and what the queue is, on both paths. -/
theorem alloc_reqPool (env : Env) (w : TaskPool)
    (task taskName lclNode remNode flags tmo id : Nat) (p1 : IdPool)
    (hslot : w.reqPool.idPool.alloc = some (id, p1)) :
    (∃ r, (RequestPool.alloc env w task taskName lclNode remNode flags tmo).2.reqPool.idPool.entry
        id = some r) ∧
    (∀ j, j ≠ id →
      (RequestPool.alloc env w task taskName lclNode remNode flags tmo).2.reqPool.idPool.entry j
        = w.reqPool.idPool.entry j) ∧
    (((RequestPool.alloc env w task taskName lclNode remNode flags tmo).1 = .ok id ∧
      (RequestPool.alloc env w task taskName lclNode remNode flags tmo).2.reqPool.root
        = w.reqPool.root.filter (fun x => x != id) ++ [id]) ∨
     ((RequestPool.alloc env w task taskName lclNode remNode flags tmo).1 = .error .logic_error ∧
      (RequestPool.alloc env w task taskName lclNode remNode flags tmo).2.reqPool.root
        = w.reqPool.root)) := by
  obtain ⟨r, hr, -⟩ := alloc_entry_fields env w task taskName lclNode remNode flags tmo id p1 hslot
  obtain ⟨hlt, -, hs⟩ := IdPool.alloc_some hslot
  have hlt1 : id < p1.slots.length := by rw [hs]; simpa using hlt
  refine ⟨⟨r, hr⟩, ?_, ?_⟩
  · intro j hj
    unfold RequestPool.alloc
    rw [hslot]
    simp only
    split
    · simp only [RequestPool.update, TaskPool.setTask, entry_setEntry_self _ _ _ hlt1]
      simp only [IdPool.entry, IdPool.setEntry, hs]
      rw [getD_set_other _ _ _ _ _ (Ne.symm hj), getD_set_other _ _ _ _ _ (Ne.symm hj),
        getD_set_other _ _ _ _ _ (Ne.symm hj)]
    · simp only [free, TaskPool.setTask]
      simp only [IdPool.entry, IdPool.setEntry, hs]
      rw [getD_set_other _ _ _ _ _ (Ne.symm hj), getD_set_other _ _ _ _ _ (Ne.symm hj)]
  · unfold RequestPool.alloc
    rw [hslot]
    simp only
    split
    · left
      refine ⟨rfl, ?_⟩
      simp only [RequestPool.update, TaskPool.setTask, entry_setEntry_self _ _ _ hlt1]
      rfl
    · right
      exact ⟨rfl, rfl⟩

/-! ## Claims -/

/-- C1: the record stored by `RequestPool::alloc` has
`tmoMs = min (max tmo 400) MAX_TIMEOUT_MS`; when the constant `REQUEST_TIMEOUT`
(declared outside `reqinfo.cpp`) puts `MAX_TIMEOUT_MS = REQUEST_TIMEOUT * 1000`
between 400 and 10,000,000, the stored value lies in `[400, MAX_TIMEOUT_MS]`, a
requested 100 is stored as 400 and a requested 10,000,000 as `MAX_TIMEOUT_MS`. -/
theorem alloc_tmoMs_clamped (env : Env) (w : TaskPool)
    (task taskName lclNode remNode flags tmo id : Nat) (p1 : IdPool)
    (hslot : w.reqPool.idPool.alloc = some (id, p1))
    (hlo : 400 ≤ env.REQUEST_TIMEOUT * 1000) (hhi : env.REQUEST_TIMEOUT * 1000 ≤ 10000000) :
    MAX_TIMEOUT_MS env = env.REQUEST_TIMEOUT * 1000 ∧
    ∃ r, (RequestPool.alloc env w task taskName lclNode remNode flags tmo).2.reqPool.idPool.entry id
          = some r ∧
      r.tmoMs = min (max tmo 400) (MAX_TIMEOUT_MS env) ∧
      400 ≤ r.tmoMs ∧ r.tmoMs ≤ MAX_TIMEOUT_MS env ∧
      (tmo = 100 → r.tmoMs = 400) ∧ (tmo = 10000000 → r.tmoMs = MAX_TIMEOUT_MS env) := by
  have hmax : MAX_TIMEOUT_MS env = env.REQUEST_TIMEOUT * 1000 := by
    unfold MAX_TIMEOUT_MS
    exact Nat.mod_eq_of_lt (by omega)
  refine ⟨hmax, ?_⟩
  obtain ⟨hlt, -, hs⟩ := IdPool.alloc_some hslot
  have hlt1 : id < p1.slots.length := by rw [hs]; simpa using hlt
  have key : ∃ r, (RequestPool.alloc env w task taskName lclNode remNode flags tmo).2.reqPool.idPool.entry id
      = some r ∧ r.tmoMs = min (max tmo 400) (MAX_TIMEOUT_MS env) := by
    unfold RequestPool.alloc
    rw [hslot]
    simp only
    split
    · simp only [RequestPool.update, TaskPool.setTask, entry_setEntry_self _ _ _ hlt1]
      refine ⟨_, entry_setEntry_self _ _ _ ?_, rfl⟩
      simpa [IdPool.setEntry] using hlt1
    · simp only [free, TaskPool.setTask]
      exact ⟨_, entry_setEntry_self _ _ _ hlt1, rfl⟩
  obtain ⟨r, hr, ht⟩ := key
  refine ⟨r, hr, ht, ?_, ?_, ?_, ?_⟩ <;> rw [ht, hmax] <;> omega

/-- C1 at the sample state: a requested 100 on an empty pool. -/
theorem alloc_tmoMs_clamped_witness :
    sampleEmpty.reqPool.idPool.alloc = some (0, ⟨[some default, none], 1⟩) ∧
    400 ≤ sampleEnv.REQUEST_TIMEOUT * 1000 ∧ sampleEnv.REQUEST_TIMEOUT * 1000 ≤ 10000000 ∧
    (MAX_TIMEOUT_MS sampleEnv = sampleEnv.REQUEST_TIMEOUT * 1000 ∧
    ∃ r, (RequestPool.alloc sampleEnv sampleEmpty 0 5 1 2 0 100).2.reqPool.idPool.entry 0
          = some r ∧
      r.tmoMs = min (max 100 400) (MAX_TIMEOUT_MS sampleEnv) ∧
      400 ≤ r.tmoMs ∧ r.tmoMs ≤ MAX_TIMEOUT_MS sampleEnv ∧
      (100 = 100 → r.tmoMs = 400) ∧ (100 = 10000000 → r.tmoMs = MAX_TIMEOUT_MS sampleEnv)) :=
  ⟨by decide, by decide, by decide,
    alloc_tmoMs_clamped sampleEnv sampleEmpty 0 5 1 2 0 100 0 ⟨[some default, none], 1⟩
      (by decide) (by decide) (by decide)⟩

/-- C2: when the task already holds the id that `RequestPool::alloc` has just
claimed, the call throws the logic error with the record outside the expiration
queue, but `free(req)` is not `release(req)`: the claimed slot stays live and the
active count is one higher than before the call. -/
theorem alloc_rejected_leaves_slot_claimed (env : Env) (w : TaskPool)
    (task taskName lclNode remNode flags tmo id : Nat) (p1 : IdPool)
    (hslot : w.reqPool.idPool.alloc = some (id, p1))
    (hheld : id ∈ (w.task task).requests) :
    (RequestPool.alloc env w task taskName lclNode remNode flags tmo).1 = .error .logic_error ∧
    (RequestPool.alloc env w task taskName lclNode remNode flags tmo).2.reqPool.idPool.activeIdCount
      = w.reqPool.idPool.activeIdCount + 1 ∧
    (RequestPool.alloc env w task taskName lclNode remNode flags tmo).2.reqPool.root
      = w.reqPool.root := by
  obtain ⟨hlt, hnone, hs⟩ := IdPool.alloc_some hslot
  have hadd : (w.tasks.getD task default).addRequest id = (false, w.tasks.getD task default) := by
    unfold TaskInfo.addRequest
    exact if_pos hheld
  unfold RequestPool.alloc
  rw [hslot]
  simp only [TaskPool.task, hadd, Bool.false_eq_true, if_false, free, TaskPool.setTask,
    IdPool.activeIdCount, IdPool.active, IdPool.setEntry, and_true, true_and]
  rw [hs, List.set_set]
  exact liveFrom_length_set_some_of_none _ _ _ _ hlt hnone

/-- C2 at the sample state: the client holds id 0 and the pool is empty; after
the failed call one slot is live. -/
theorem alloc_rejected_leaves_slot_claimed_witness :
    sampleHeld.reqPool.idPool.alloc = some (0, ⟨[some default, none], 1⟩) ∧
    0 ∈ (sampleHeld.task 0).requests ∧
    ((RequestPool.alloc sampleEnv sampleHeld 0 5 1 2 0 100).1 = .error .logic_error ∧
    (RequestPool.alloc sampleEnv sampleHeld 0 5 1 2 0 100).2.reqPool.idPool.activeIdCount
      = sampleHeld.reqPool.idPool.activeIdCount + 1 ∧
    (RequestPool.alloc sampleEnv sampleHeld 0 5 1 2 0 100).2.reqPool.root
      = sampleHeld.reqPool.root) :=
  ⟨by decide, by decide,
    alloc_rejected_leaves_slot_claimed sampleEnv sampleHeld 0 5 1 2 0 100 0
      ⟨[some default, none], 1⟩ (by decide) (by decide)⟩

/-- C3: `RequestPool::cancelReqId` returns true exactly when the id denotes a
live record, and a call that does not return true leaves the whole state (id
pool, queue, tasks, counters, trace of sent packets) as it was. -/
theorem cancelReqId_true_iff_live (env : Env) (w : TaskPool) (id : Nat)
    (xmt sendLastReply : Bool) :
    ((RequestPool.cancelReqId env w id xmt sendLastReply).1 = true ↔
      ∃ r, w.reqPool.idPool.entry id = some r) ∧
    ((RequestPool.cancelReqId env w id xmt sendLastReply).1 = true ∨
      RequestPool.cancelReqId env w id xmt sendLastReply = (false, w)) := by
  unfold RequestPool.cancelReqId
  cases h : w.reqPool.idPool.entry id with
  | none => simp
  | some r => simp

/-- C4: for a live id `RequestPool::cancelReqId` returns true and leaves the
request pool released: no live record under the id, the id gone from the
expiration queue, the active count one lower, every other record and the order
of the remaining queue entries unchanged.  The same call in the state where the
client does not hold the id, so that `removeRequest` reports false, gives the
same result and the same final state. -/
theorem cancelReqId_releases_live (env : Env) (w : TaskPool) (id : Nat) (req : ReqInfo)
    (xmt sendLastReply : Bool) (hlive : w.reqPool.idPool.entry id = some req) :
    (RequestPool.cancelReqId env w id xmt sendLastReply).1 = true ∧
    (RequestPool.cancelReqId env w id xmt sendLastReply).2.reqPool.idPool.entry id = none ∧
    id ∉ (RequestPool.cancelReqId env w id xmt sendLastReply).2.reqPool.root ∧
    (RequestPool.cancelReqId env w id xmt sendLastReply).2.reqPool.idPool.activeIdCount + 1
      = w.reqPool.idPool.activeIdCount ∧
    (∀ j, j ≠ id →
      (RequestPool.cancelReqId env w id xmt sendLastReply).2.reqPool.idPool.entry j
        = w.reqPool.idPool.entry j) ∧
    (RequestPool.cancelReqId env w id xmt sendLastReply).2.reqPool.idPool.active
      = w.reqPool.idPool.active.filter (fun e => e.1 != id) ∧
    (RequestPool.cancelReqId env w id xmt sendLastReply).2.reqPool.root
      = w.reqPool.root.filter (fun x => x != id) ∧
    (((w.setTask req.task_ ((w.task req.task_).removeRequest id).2).task req.task_).removeRequest
        id).1 = false ∧
    RequestPool.cancelReqId env (w.setTask req.task_ ((w.task req.task_).removeRequest id).2)
        id xmt sendLastReply
      = RequestPool.cancelReqId env w id xmt sendLastReply := by
  rw [cancelReqId_live env w id req xmt sendLastReply hlive]
  have hnot := TaskPool.not_mem_after_removeRequest w req.task_ id
  have hrem := TaskInfo.removeRequest_of_not_mem _ _ hnot
  refine ⟨rfl, ?_, ?_, ?_, ?_, ?_, ?_, ?_, ?_⟩
  · exact IdPool.entry_release_self _ _
  · simp [RequestPool.release_root]
  · exact IdPool.activeIdCount_release _ _ _ hlive
  · intro j hj
    exact IdPool.entry_release_other _ _ _ hj
  · exact IdPool.active_release _ _
  · rfl
  · rw [hrem]
  · rw [cancelReqId_live env (w.setTask req.task_ ((w.task req.task_).removeRequest id).2)
      id req xmt sendLastReply hlive, hrem]
    simp only [TaskPool.setTask_task_self]
    rfl

/-- C4 at the sample state: request 0 of `sampleOne` is live and held. -/
theorem cancelReqId_releases_live_witness :
    sampleOne.reqPool.idPool.entry 0 = some sampleReq ∧
    ((RequestPool.cancelReqId sampleEnv sampleOne 0 true false).1 = true ∧
    (RequestPool.cancelReqId sampleEnv sampleOne 0 true false).2.reqPool.idPool.entry 0 = none ∧
    0 ∉ (RequestPool.cancelReqId sampleEnv sampleOne 0 true false).2.reqPool.root ∧
    (RequestPool.cancelReqId sampleEnv sampleOne 0 true false).2.reqPool.idPool.activeIdCount + 1
      = sampleOne.reqPool.idPool.activeIdCount ∧
    (∀ j, j ≠ 0 →
      (RequestPool.cancelReqId sampleEnv sampleOne 0 true false).2.reqPool.idPool.entry j
        = sampleOne.reqPool.idPool.entry j) ∧
    (RequestPool.cancelReqId sampleEnv sampleOne 0 true false).2.reqPool.idPool.active
      = sampleOne.reqPool.idPool.active.filter (fun e => e.1 != 0) ∧
    (RequestPool.cancelReqId sampleEnv sampleOne 0 true false).2.reqPool.root
      = sampleOne.reqPool.root.filter (fun x => x != 0) ∧
    (((sampleOne.setTask sampleReq.task_
        ((sampleOne.task sampleReq.task_).removeRequest 0).2).task
          sampleReq.task_).removeRequest 0).1 = false ∧
    RequestPool.cancelReqId sampleEnv
        (sampleOne.setTask sampleReq.task_ ((sampleOne.task sampleReq.task_).removeRequest 0).2)
        0 true false
      = RequestPool.cancelReqId sampleEnv sampleOne 0 true false) :=
  ⟨by decide, cancelReqId_releases_live sampleEnv sampleOne 0 sampleReq true false (by decide)⟩

/-- C5: for a live id whose owning task is in the task table,
`RequestPool::cancelReqId` appends to the trace exactly: nothing when `xmt` is
false; when `xmt` is true the cancel header (CAN, SUCCESS, remote node, local
node, target task, owning task id, request id, header size) to the network,
followed, when `sendLastReply` is also true, by one DISCONNECTED reply to the
owning client.  `statUsmXmt` of the task and of the pool grow by one exactly
when `xmt` is true, `statRpyRcv` of the task and of the pool grow by one exactly
when both flags are true, and the counters of every other task are unchanged. -/
theorem cancelReqId_packets_and_counters (env : Env) (w : TaskPool) (id : Nat) (req : ReqInfo)
    (xmt sendLastReply : Bool) (hlive : w.reqPool.idPool.entry id = some req)
    (hvalid : req.task_ < w.tasks.length) :
    (RequestPool.cancelReqId env w id xmt sendLastReply).2.sent =
      w.sent ++
        (if xmt = true then
          Event.toNetwork ⟨.ACNET_FLG_CAN, .ACNET_SUCCESS, req.remNode_, req.lclNode_,
              req.taskName_, (w.task req.task_).id, id, env.sizeofAcnetHeader⟩ ::
            (if sendLastReply = true then
              [Event.toClient req.task_ ⟨.ACNET_FLG_RPY, .ACNET_DISCONNECTED, req.remNode_,
                req.lclNode_, req.taskName_, (w.task req.task_).id, id, env.sizeofAcnetHeader⟩]
            else [])
        else []) ∧
    (RequestPool.cancelReqId env w id xmt sendLastReply).2.statUsmXmt =
      w.statUsmXmt + (if xmt = true then 1 else 0) ∧
    (RequestPool.cancelReqId env w id xmt sendLastReply).2.statRpyRcv =
      w.statRpyRcv + (if xmt = true ∧ sendLastReply = true then 1 else 0) ∧
    (∀ t, ((RequestPool.cancelReqId env w id xmt sendLastReply).2.task t).statUsmXmt =
      (w.task t).statUsmXmt + (if t = req.task_ ∧ xmt = true then 1 else 0)) ∧
    (∀ t, ((RequestPool.cancelReqId env w id xmt sendLastReply).2.task t).statRpyRcv =
      (w.task t).statRpyRcv +
        (if t = req.task_ ∧ xmt = true ∧ sendLastReply = true then 1 else 0)) := by
  rw [cancelReqId_live env w id req xmt sendLastReply hlive]
  have hlen := TaskPool.tasks_length_setTask w req.task_ ((w.task req.task_).removeRequest id).2
  have hfr := TaskPool.task_after_removeRequest w req.task_ id
  have hsent : (w.setTask req.task_ ((w.task req.task_).removeRequest id).2).sent = w.sent := rfl
  have hU : (w.setTask req.task_ ((w.task req.task_).removeRequest id).2).statUsmXmt
      = w.statUsmXmt := rfl
  have hR : (w.setTask req.task_ ((w.task req.task_).removeRequest id).2).statRpyRcv
      = w.statRpyRcv := rfl
  generalize w.setTask req.task_ ((w.task req.task_).removeRequest id).2 = w1
    at hlen hfr hsent hU hR
  have hv1 : req.task_ < w1.tasks.length := by omega
  have hid := (hfr req.task_).1
  cases xmt <;> cases sendLastReply
  · refine ⟨by simpa [cancelReqIdXmt] using hsent, by simpa [cancelReqIdXmt] using hU,
      by simpa [cancelReqIdXmt] using hR, fun t => ?_, fun t => ?_⟩
    · simpa [cancelReqIdXmt, TaskPool.task] using (hfr t).2.2.2
    · simpa [cancelReqIdXmt, TaskPool.task] using (hfr t).2.2.1
  · refine ⟨by simpa [cancelReqIdXmt] using hsent, by simpa [cancelReqIdXmt] using hU,
      by simpa [cancelReqIdXmt] using hR, fun t => ?_, fun t => ?_⟩
    · simpa [cancelReqIdXmt, TaskPool.task] using (hfr t).2.2.2
    · simpa [cancelReqIdXmt, TaskPool.task] using (hfr t).2.2.1
  · obtain ⟨a1, a2, a3, -, -, a6⟩ := TaskPool.bumpUsmXmt_fields
      (w1.emit (.toNetwork ⟨.ACNET_FLG_CAN, .ACNET_SUCCESS, req.remNode_, req.lclNode_,
        req.taskName_, (w1.task req.task_).id, id, env.sizeofAcnetHeader⟩)) req.task_ hv1
    simp only [cancelReqIdXmt, if_true, Bool.false_eq_true, if_false, and_false, and_true]
    refine ⟨?_, ?_, ?_, fun t => ?_, fun t => ?_⟩
    · rw [a1, ← hsent, ← hid]; rfl
    · rw [a2, ← hU]; rfl
    · rw [a3, ← hR]; rfl
    · have := (a6 t).2.1
      rw [TaskPool.task_emit, (hfr t).2.2.2] at this
      exact this
    · have := (a6 t).2.2
      rw [TaskPool.task_emit, (hfr t).2.2.1] at this
      simpa using this
  · obtain ⟨a1, a2, a3, -, a5, a6⟩ := TaskPool.bumpUsmXmt_fields
      (w1.emit (.toNetwork ⟨.ACNET_FLG_CAN, .ACNET_SUCCESS, req.remNode_, req.lclNode_,
        req.taskName_, (w1.task req.task_).id, id, env.sizeofAcnetHeader⟩)) req.task_ hv1
    simp only [cancelReqIdXmt, if_true, and_true]
    generalize (w1.emit (.toNetwork ⟨.ACNET_FLG_CAN, .ACNET_SUCCESS, req.remNode_, req.lclNode_,
        req.taskName_, (w1.task req.task_).id, id, env.sizeofAcnetHeader⟩)).bumpUsmXmt
          req.task_ = a at a1 a2 a3 a5 a6 ⊢
    have hva : req.task_ < a.tasks.length := by rw [a5]; exact hv1
    obtain ⟨b1, b2, b3, -, -, b6⟩ := TaskPool.bumpRpyRcv_fields
      (a.emit (.toClient req.task_ ⟨.ACNET_FLG_RPY, .ACNET_DISCONNECTED, req.remNode_,
        req.lclNode_, req.taskName_, (a.task req.task_).id, id, env.sizeofAcnetHeader⟩))
      req.task_ hva
    have hida : (a.task req.task_).id = (w.task req.task_).id := by
      rw [(a6 req.task_).1, TaskPool.task_emit, hid]
    refine ⟨?_, ?_, ?_, fun t => ?_, fun t => ?_⟩
    · rw [b1]
      show (a.sent ++ _) = _
      rw [a1, hida]
      simp [TaskPool.emit, hsent, hid]
    · rw [b2, ← hU]
      show a.statUsmXmt = _
      rw [a2]; rfl
    · rw [b3, ← hR]
      show a.statRpyRcv + 1 = _
      rw [a3]; rfl
    · have := (b6 t).2.1
      rw [TaskPool.task_emit, (a6 t).2.1, TaskPool.task_emit, (hfr t).2.2.2] at this
      exact this
    · have := (b6 t).2.2
      rw [TaskPool.task_emit, (a6 t).2.2, TaskPool.task_emit, (hfr t).2.2.1] at this
      exact this

/-- C5 at the sample state: request 0 of `sampleOne`, both flags set. -/
theorem cancelReqId_packets_and_counters_witness :
    sampleOne.reqPool.idPool.entry 0 = some sampleReq ∧
    sampleReq.task_ < sampleOne.tasks.length ∧
    ((RequestPool.cancelReqId sampleEnv sampleOne 0 true true).2.sent =
      sampleOne.sent ++
        (if true = true then
          Event.toNetwork ⟨.ACNET_FLG_CAN, .ACNET_SUCCESS, sampleReq.remNode_, sampleReq.lclNode_,
              sampleReq.taskName_, (sampleOne.task sampleReq.task_).id, 0,
              sampleEnv.sizeofAcnetHeader⟩ ::
            (if true = true then
              [Event.toClient sampleReq.task_ ⟨.ACNET_FLG_RPY, .ACNET_DISCONNECTED,
                sampleReq.remNode_, sampleReq.lclNode_, sampleReq.taskName_,
                (sampleOne.task sampleReq.task_).id, 0, sampleEnv.sizeofAcnetHeader⟩]
            else [])
        else []) ∧
    (RequestPool.cancelReqId sampleEnv sampleOne 0 true true).2.statUsmXmt =
      sampleOne.statUsmXmt + (if true = true then 1 else 0) ∧
    (RequestPool.cancelReqId sampleEnv sampleOne 0 true true).2.statRpyRcv =
      sampleOne.statRpyRcv + (if true = true ∧ true = true then 1 else 0) ∧
    (∀ t, ((RequestPool.cancelReqId sampleEnv sampleOne 0 true true).2.task t).statUsmXmt =
      (sampleOne.task t).statUsmXmt + (if t = sampleReq.task_ ∧ true = true then 1 else 0)) ∧
    (∀ t, ((RequestPool.cancelReqId sampleEnv sampleOne 0 true true).2.task t).statRpyRcv =
      (sampleOne.task t).statRpyRcv +
        (if t = sampleReq.task_ ∧ true = true ∧ true = true then 1 else 0))) :=
  ⟨by decide, by decide,
    cancelReqId_packets_and_counters sampleEnv sampleOne 0 sampleReq true true
      (by decide) (by decide)⟩

/-- C6: on a pool holding exactly one active request, queued and with
`expiration()` at or before now, `sendRequestTimeoutsAndGetNextTimeout` returns
-1; the trace grows by exactly one TMO reply to the owning client followed by
one cancel notification to the network (and by the `removeTask` hand-over when
the client send failed), so no DISCONNECTED reply is sent; afterwards the id has
no live record, the active count is 0 and the queue is empty. -/
theorem sweep_single_expired (env : Env) (w : TaskPool) (id : Nat) (req : ReqInfo)
    (hone : w.reqPool.idPool.active = [(id, req)]) (hq : w.reqPool.root = [id])
    (hexp : (env.expiration req).le env.now = true) :
    ∃ w', RequestPool.sendRequestTimeoutsAndGetNextTimeout env w = some (-1, w') ∧
      w'.sent =
        w.sent ++
          [Event.toClient req.task_ ⟨.ACNET_FLG_RPY, .ACNET_TMO, req.remNode_, req.lclNode_,
              req.taskName_, (w.task req.task_).id, id, env.sizeofAcnetHeader⟩,
            Event.toNetwork ⟨.ACNET_FLG_CAN, .ACNET_SUCCESS, req.remNode_, req.lclNode_,
              req.taskName_, (w.task req.task_).id, id, env.sizeofAcnetHeader⟩] ++
          (if env.sendDataToClient w.sent req.task_ ⟨.ACNET_FLG_RPY, .ACNET_TMO, req.remNode_,
              req.lclNode_, req.taskName_, (w.task req.task_).id, id, env.sizeofAcnetHeader⟩
                = true
            then [] else [Event.removeTask req.task_]) ∧
      w'.reqPool.idPool.entry id = none ∧
      w'.reqPool.idPool.activeIdCount = 0 ∧
      w'.reqPool.root = [] := by
  have hlive : w.reqPool.idPool.entry id = some req := by
    rw [← IdPool.mem_active, hone]
    exact List.mem_singleton_self _
  obtain ⟨hrp, hsent⟩ := sweepExpired_live env w id req hlive
  have hroot : (sweepExpired env w id req).reqPool.root = [] := by
    rw [hrp, RequestPool.release_root, hq]
    simp
  refine ⟨sweepExpired env w id req, ?_, hsent, ?_, ?_, hroot⟩
  · unfold RequestPool.sendRequestTimeoutsAndGetNextTimeout
    rw [hq]
    show sweepLoop env (0 + 1 + 1) w = _
    rw [sweepLoop_expired env (0 + 1) w id [] req hq hlive hexp]
    exact sweepLoop_empty env 0 _ hroot
  · rw [hrp]
    exact IdPool.entry_release_self _ _
  · rw [hrp]
    unfold IdPool.activeIdCount
    rw [RequestPool.release_idPool, IdPool.active_release, hone]
    simp

/-- C6 at the sample state: the one request of `sampleOne`, swept one thousand
seconds after its creation. -/
theorem sweep_single_expired_witness :
    sampleOne.reqPool.idPool.active = [(0, sampleReq)] ∧ sampleOne.reqPool.root = [0] ∧
    (sampleEnvLate.expiration sampleReq).le sampleEnvLate.now = true ∧
    ∃ w', RequestPool.sendRequestTimeoutsAndGetNextTimeout sampleEnvLate sampleOne
        = some (-1, w') ∧
      w'.sent =
        sampleOne.sent ++
          [Event.toClient sampleReq.task_ ⟨.ACNET_FLG_RPY, .ACNET_TMO, sampleReq.remNode_,
              sampleReq.lclNode_, sampleReq.taskName_, (sampleOne.task sampleReq.task_).id, 0,
              sampleEnvLate.sizeofAcnetHeader⟩,
            Event.toNetwork ⟨.ACNET_FLG_CAN, .ACNET_SUCCESS, sampleReq.remNode_,
              sampleReq.lclNode_, sampleReq.taskName_, (sampleOne.task sampleReq.task_).id, 0,
              sampleEnvLate.sizeofAcnetHeader⟩] ++
          (if sampleEnvLate.sendDataToClient sampleOne.sent sampleReq.task_
              ⟨.ACNET_FLG_RPY, .ACNET_TMO, sampleReq.remNode_, sampleReq.lclNode_,
                sampleReq.taskName_, (sampleOne.task sampleReq.task_).id, 0,
                sampleEnvLate.sizeofAcnetHeader⟩ = true
            then [] else [Event.removeTask sampleReq.task_]) ∧
      w'.reqPool.idPool.entry 0 = none ∧
      w'.reqPool.idPool.activeIdCount = 0 ∧
      w'.reqPool.root = [] :=
  ⟨by decide, by decide, by decide,
    sweep_single_expired sampleEnvLate sampleOne 0 sampleReq (by decide) (by decide) (by decide)⟩

/-- C7: when the oldest queued request is live and its `expiration()` is
strictly after now, `sendRequestTimeoutsAndGetNextTimeout` leaves the whole
state (id pool, queue, tasks, counters, trace) as it was and returns
`diffInMs(expiration, now)` narrowed to its 32-bit `int` result.  With both
time values normalised (microseconds below one million) and the remaining time
below 2^31 ms, so that it fits the `int`, the result is exactly
`diffInMs(expiration, now)`, is not negative, and so is not -1. -/
theorem sweep_pending_returns_remaining (env : Env) (w : TaskPool) (id : Nat)
    (rest : List Nat) (req : ReqInfo) (hq : w.reqPool.root = id :: rest)
    (hlive : w.reqPool.idPool.entry id = some req)
    (hexp : (env.expiration req).le env.now = false)
    (he : (env.expiration req).tv_usec < 1000000) (hn : env.now.tv_usec < 1000000)
    (hfit : diffInMs (env.expiration req) env.now < 2147483648) :
    RequestPool.sendRequestTimeoutsAndGetNextTimeout env w
      = some (toInt32 (diffInMs (env.expiration req) env.now), w) ∧
    toInt32 (diffInMs (env.expiration req) env.now) = diffInMs (env.expiration req) env.now ∧
    0 ≤ toInt32 (diffInMs (env.expiration req) env.now) ∧
    toInt32 (diffInMs (env.expiration req) env.now) ≠ -1 := by
  have h0 := diffInMs_nonneg _ _ he hn hexp
  have h1 := toInt32_of_fits _ h0 hfit
  refine ⟨?_, h1, by omega, by omega⟩
  unfold RequestPool.sendRequestTimeoutsAndGetNextTimeout
  exact sweepLoop_pending env _ w id rest req hq hlive hexp

/-- C7 at the sample state: the one request of `sampleOne`, swept at its
creation time, has 400 ms left. -/
theorem sweep_pending_returns_remaining_witness :
    sampleOne.reqPool.root = 0 :: [] ∧ sampleOne.reqPool.idPool.entry 0 = some sampleReq ∧
    (sampleEnv.expiration sampleReq).le sampleEnv.now = false ∧
    (sampleEnv.expiration sampleReq).tv_usec < 1000000 ∧ sampleEnv.now.tv_usec < 1000000 ∧
    diffInMs (sampleEnv.expiration sampleReq) sampleEnv.now < 2147483648 ∧
    toInt32 (diffInMs (sampleEnv.expiration sampleReq) sampleEnv.now) = 400 ∧
    (RequestPool.sendRequestTimeoutsAndGetNextTimeout sampleEnv sampleOne
      = some (toInt32 (diffInMs (sampleEnv.expiration sampleReq) sampleEnv.now), sampleOne) ∧
    toInt32 (diffInMs (sampleEnv.expiration sampleReq) sampleEnv.now)
      = diffInMs (sampleEnv.expiration sampleReq) sampleEnv.now ∧
    0 ≤ toInt32 (diffInMs (sampleEnv.expiration sampleReq) sampleEnv.now) ∧
    toInt32 (diffInMs (sampleEnv.expiration sampleReq) sampleEnv.now) ≠ -1) :=
  ⟨by decide, by decide, by decide, by decide, by decide, by decide, by decide,
    sweep_pending_returns_remaining sampleEnv sampleOne 0 [] sampleReq
      (by decide) (by decide) (by decide) (by decide) (by decide) (by decide)⟩

/-- C8: on a pool with exactly one active request addressed to node `n`,
`cancelReqToNode(n)` appends to the trace exactly one DISCONNECTED reply to that
request's owning client (and the `removeTask` hand-over when that send failed),
takes the id out of the client's membership set, frees the slot, takes the id
out of the queue and lowers the active count by exactly one; a second
`cancelReqToNode(n)` on the resulting state returns that state unchanged, trace
included. -/
theorem cancelReqToNode_single (env : Env) (w : TaskPool) (n id : Nat) (req : ReqInfo)
    (hone : w.reqPool.idPool.active.filter (fun e => decide (e.2.remNode_ = n)) = [(id, req)]) :
    ∃ w', RequestPool.cancelReqToNode env w n = some w' ∧
      w'.sent =
        w.sent ++
          [Event.toClient req.task_ ⟨.ACNET_FLG_RPY, .ACNET_DISCONNECTED, req.remNode_,
            req.lclNode_, req.taskName_, (w.task req.task_).id, id, env.sizeofAcnetHeader⟩] ++
          (if env.sendDataToClient w.sent req.task_ ⟨.ACNET_FLG_RPY, .ACNET_DISCONNECTED,
              req.remNode_, req.lclNode_, req.taskName_, (w.task req.task_).id, id,
              env.sizeofAcnetHeader⟩ = true
            then [] else [Event.removeTask req.task_]) ∧
      id ∉ (w'.task req.task_).requests ∧
      w'.reqPool.idPool.entry id = none ∧
      id ∉ w'.reqPool.root ∧
      w'.reqPool.idPool.activeIdCount + 1 = w.reqPool.idPool.activeIdCount ∧
      ∀ env2 : Env, RequestPool.cancelReqToNode env2 w' n = some w' := by
  have hmem : (id, req) ∈ w.reqPool.idPool.active := by
    have : (id, req) ∈ w.reqPool.idPool.active.filter (fun e => decide (e.2.remNode_ = n)) := by
      rw [hone]; exact List.mem_singleton_self _
    exact (List.mem_filter.1 this).1
  have hlive : w.reqPool.idPool.entry id = some req := (IdPool.mem_active _ _ _).1 hmem
  obtain ⟨hrp, hsent, hnot⟩ := cancelReqToNodeHit_fields env w id req
  refine ⟨cancelReqToNodeHit env w id req, ?_, hsent, hnot, ?_, ?_, ?_, ?_⟩
  · rw [cancelReqToNode_eq, hone]
    rfl
  · rw [hrp]
    exact IdPool.entry_release_self _ _
  · rw [hrp, RequestPool.release_root]
    simp
  · rw [hrp]
    exact IdPool.activeIdCount_release _ _ _ hlive
  · intro env2
    rw [cancelReqToNode_eq, hrp, RequestPool.release_idPool, IdPool.active_release,
      List.filter_filter]
    have : w.reqPool.idPool.active.filter
        (fun a => decide (a.2.remNode_ = n) && (a.1 != id)) = [] := by
      have h2 : w.reqPool.idPool.active.filter
          (fun a => decide (a.2.remNode_ = n) && (a.1 != id))
          = (w.reqPool.idPool.active.filter (fun e => decide (e.2.remNode_ = n))).filter
              (fun a => a.1 != id) := by
        rw [List.filter_filter]
        congr 1
        funext a
        exact Bool.and_comm _ _
      rw [h2, hone]
      simp
    rw [this]
    rfl

/-- C8 at the sample state: of the two requests of `sampleTwo` exactly one, id 1,
is addressed to node 3. -/
theorem cancelReqToNode_single_witness :
    sampleTwo.reqPool.idPool.active.filter (fun e => decide (e.2.remNode_ = 3))
      = [(1, { sampleReq with remNode_ := 3 })] ∧
    ∃ w', RequestPool.cancelReqToNode sampleEnv sampleTwo 3 = some w' ∧
      w'.sent =
        sampleTwo.sent ++
          [Event.toClient sampleReq.task_ ⟨.ACNET_FLG_RPY, .ACNET_DISCONNECTED, 3,
            sampleReq.lclNode_, sampleReq.taskName_, (sampleTwo.task sampleReq.task_).id, 1,
            sampleEnv.sizeofAcnetHeader⟩] ++
          (if sampleEnv.sendDataToClient sampleTwo.sent sampleReq.task_
              ⟨.ACNET_FLG_RPY, .ACNET_DISCONNECTED, 3, sampleReq.lclNode_, sampleReq.taskName_,
                (sampleTwo.task sampleReq.task_).id, 1, sampleEnv.sizeofAcnetHeader⟩ = true
            then [] else [Event.removeTask sampleReq.task_]) ∧
      1 ∉ (w'.task sampleReq.task_).requests ∧
      w'.reqPool.idPool.entry 1 = none ∧
      1 ∉ w'.reqPool.root ∧
      w'.reqPool.idPool.activeIdCount + 1 = sampleTwo.reqPool.idPool.activeIdCount ∧
      ∀ env2 : Env, RequestPool.cancelReqToNode env2 w' 3 = some w' :=
  ⟨by decide,
    cancelReqToNode_single sampleEnv sampleTwo 3 1 { sampleReq with remNode_ := 3 } (by decide)⟩

/-- C9: with an empty selector set (`n = 0`), whatever the selector kind,
`fillActiveRequests` writes `htoas` of the id of every live entry, in the order
of the live list, and sets `total` to the active count; the ids of the live list
are strictly increasing (table order, each once) and are exactly the ids with a
live record. -/
theorem fillActiveRequests_all (env : Env) (w : TaskPool) (subType : Nat) (data : List Nat) :
    RequestPool.fillActiveRequests env w subType data 0 =
      some ⟨w.reqPool.idPool.activeIdCount,
        (w.reqPool.idPool.active.map Prod.fst).map env.htoas⟩ ∧
    (w.reqPool.idPool.active.map Prod.fst).Pairwise (fun a b => a < b) ∧
    ∀ id, id ∈ w.reqPool.idPool.active.map Prod.fst ↔
      ∃ r, w.reqPool.idPool.entry id = some r := by
  refine ⟨?_, ?_, fun id => ?_⟩
  · rw [fillActiveRequests_eq]
    simp [IdPool.activeIdCount]
  · rw [List.pairwise_map]
    exact liveFrom_sorted _ _
  · rw [List.mem_map]
    constructor
    · rintro ⟨⟨j, r⟩, hm, rfl⟩
      exact ⟨r, (IdPool.mem_active _ _ _).1 hm⟩
    · rintro ⟨r, hr⟩
      exact ⟨(id, r), (IdPool.mem_active _ _ _).2 hr, rfl⟩

/-- C11: with a non-empty selector (`n > 0`) `fillActiveRequests` writes `htoas`
of the ids of exactly the live entries that `reqInList` accepts, in the order of
the live list (table order), and `total` is their number.  Kind 0 accepts an
entry iff its remote node is `atohs` of one of the `n` words; kind 1 iff its
target task handle is `atohl` of one of the 32-bit values formed by the
complete word pairs; kind 2 iff the handle of the owning task is. -/
theorem fillActiveRequests_selected (env : Env) (w : TaskPool) (subType : Nat)
    (data : List Nat) (n : Nat) (hn : 0 < n) :
    RequestPool.fillActiveRequests env w subType data n =
      some ⟨(w.reqPool.idPool.active.filter
              (fun e => reqInList env w e.2 subType data n)).length,
        ((w.reqPool.idPool.active.filter
              (fun e => reqInList env w e.2 subType data n)).map Prod.fst).map env.htoas⟩ ∧
    (w.reqPool.idPool.active.filter (fun e => reqInList env w e.2 subType data n)).Sublist
      w.reqPool.idPool.active ∧
    (w.reqPool.idPool.active.map Prod.fst).Pairwise (fun a b => a < b) ∧
    (∀ req, reqInList env w req 0 data n = true ↔
      ∃ i, i < n ∧ req.remNode_ = env.atohs (data.getD i 0)) ∧
    (∀ req, reqInList env w req 1 data n = true ↔
      ∃ k, 2 * k + 1 < n ∧
        req.taskName_ = env.atohl (env.load32 (data.getD (2 * k) 0) (data.getD (2 * k + 1) 0))) ∧
    (∀ req, reqInList env w req 2 data n = true ↔
      ∃ k, 2 * k + 1 < n ∧
        (w.task req.task_).handle =
          env.atohl (env.load32 (data.getD (2 * k) 0) (data.getD (2 * k + 1) 0))) := by
  refine ⟨?_, List.filter_sublist _, ?_, fun req => ?_, fun req => ?_, fun req => ?_⟩
  · rw [fillActiveRequests_eq]
    have hne : n ≠ 0 := by omega
    simp [hne]
  · rw [List.pairwise_map]
    exact liveFrom_sorted _ _
  · exact reqInList0_iff env req n data
  · exact reqInList32_iff env req.taskName_ n data
  · exact reqInList32_iff env (w.task req.task_).handle n data

/-- C11 at the sample state: selecting node 3 among the two requests of
`sampleTwo` lists id 1 only. -/
theorem fillActiveRequests_selected_witness :
    0 < 1 ∧
    (RequestPool.fillActiveRequests sampleEnv sampleTwo 0 [3] 1 =
      some ⟨(sampleTwo.reqPool.idPool.active.filter
              (fun e => reqInList sampleEnv sampleTwo e.2 0 [3] 1)).length,
        ((sampleTwo.reqPool.idPool.active.filter
              (fun e => reqInList sampleEnv sampleTwo e.2 0 [3] 1)).map Prod.fst).map
                sampleEnv.htoas⟩ ∧
    (sampleTwo.reqPool.idPool.active.filter
        (fun e => reqInList sampleEnv sampleTwo e.2 0 [3] 1)).Sublist
      sampleTwo.reqPool.idPool.active ∧
    (sampleTwo.reqPool.idPool.active.map Prod.fst).Pairwise (fun a b => a < b) ∧
    (∀ req, reqInList sampleEnv sampleTwo req 0 [3] 1 = true ↔
      ∃ i, i < 1 ∧ req.remNode_ = sampleEnv.atohs (([3] : List Nat).getD i 0)) ∧
    (∀ req, reqInList sampleEnv sampleTwo req 1 [3] 1 = true ↔
      ∃ k, 2 * k + 1 < 1 ∧
        req.taskName_ = sampleEnv.atohl
          (sampleEnv.load32 (([3] : List Nat).getD (2 * k) 0)
            (([3] : List Nat).getD (2 * k + 1) 0))) ∧
    (∀ req, reqInList sampleEnv sampleTwo req 2 [3] 1 = true ↔
      ∃ k, 2 * k + 1 < 1 ∧
        (sampleTwo.task req.task_).handle =
          sampleEnv.atohl (sampleEnv.load32 (([3] : List Nat).getD (2 * k) 0)
            (([3] : List Nat).getD (2 * k + 1) 0)))) :=
  ⟨by decide, fillActiveRequests_selected sampleEnv sampleTwo 0 [3] 1 (by decide)⟩

/-- C12: `fillRequestDetail` returns false and leaves the buffer as it was when
the decoded id has no live record, in particular after `release` or
`cancelReqId` of that id.  For a live id it returns true and, the conversion
macros being inverse to each other on 16-bit and 32-bit values and the stored
values fitting their fields, the remote node, remote task handle, local task
handle, creation time and last-update time of the buffer decode to the values
stored in the record. -/
theorem fillRequestDetail_decodes (env : Env) (w : TaskPool) (id : Nat) (buf : reqDetail)
    (hs : ∀ x, x < 2 ^ 16 → env.atohs (env.htoas x) = x)
    (hl : ∀ x, x < 2 ^ 32 → env.atohl (env.htoal x) = x) :
    (w.reqPool.idPool.entry (env.atohs id) = none →
      RequestPool.fillRequestDetail env w id buf = (false, buf)) ∧
    RequestPool.fillRequestDetail env
        { w with reqPool := w.reqPool.release (env.atohs id) } id buf = (false, buf) ∧
    (∀ xmt sendLastReply,
      RequestPool.fillRequestDetail env
        (RequestPool.cancelReqId env w (env.atohs id) xmt sendLastReply).2 id buf
          = (false, buf)) ∧
    (∀ req, w.reqPool.idPool.entry (env.atohs id) = some req →
      req.remNode_ < 2 ^ 16 → req.taskName_ < 2 ^ 32 → (w.task req.task_).handle < 2 ^ 32 →
      req.initTime_ < 2 ^ 32 → req.lastUpdate.tv_sec < 2 ^ 32 →
      (RequestPool.fillRequestDetail env w id buf).1 = true ∧
      env.atohs (RequestPool.fillRequestDetail env w id buf).2.remNode = req.remNode_ ∧
      env.atohl (RequestPool.fillRequestDetail env w id buf).2.remName = req.taskName_ ∧
      env.atohl (RequestPool.fillRequestDetail env w id buf).2.lclName
        = (w.task req.task_).handle ∧
      env.atohl (RequestPool.fillRequestDetail env w id buf).2.initTime = req.initTime_ ∧
      env.atohl (RequestPool.fillRequestDetail env w id buf).2.lastUpdate
        = req.lastUpdate.tv_sec) := by
  refine ⟨fillRequestDetail_none env w id buf, ?_, fun xmt sendLastReply => ?_, ?_⟩
  · exact fillRequestDetail_none env _ id buf (IdPool.entry_release_self _ _)
  · exact fillRequestDetail_none env _ id buf (cancelReqId_entry_none env w _ xmt sendLastReply)
  · intro req hlive h1 h2 h3 h4 h5
    rw [fillRequestDetail_some env w id buf req hlive]
    refine ⟨rfl, hs _ h1, hl _ h2, hl _ h3, ?_, ?_⟩
    · show env.atohl (env.htoal (req.initTime_ % 2 ^ 32)) = _
      rw [Nat.mod_eq_of_lt h4]
      exact hl _ h4
    · show env.atohl (env.htoal (req.lastUpdate.tv_sec % 2 ^ 32)) = _
      rw [Nat.mod_eq_of_lt h5]
      exact hl _ h5

/-- C12 on the byte-swapping host: request 1 of `sampleTwo`, asked for by its
wire id 256. -/
theorem fillRequestDetail_decodes_witness :
    (∀ x, x < 2 ^ 16 → sampleEnvSwap.atohs (sampleEnvSwap.htoas x) = x) ∧
    (∀ x, x < 2 ^ 32 → sampleEnvSwap.atohl (sampleEnvSwap.htoal x) = x) ∧
    ((sampleTwo.reqPool.idPool.entry (sampleEnvSwap.atohs 256) = none →
      RequestPool.fillRequestDetail sampleEnvSwap sampleTwo 256 default = (false, default)) ∧
    RequestPool.fillRequestDetail sampleEnvSwap
        { sampleTwo with reqPool := sampleTwo.reqPool.release (sampleEnvSwap.atohs 256) }
        256 default = (false, default) ∧
    (∀ xmt sendLastReply,
      RequestPool.fillRequestDetail sampleEnvSwap
        (RequestPool.cancelReqId sampleEnvSwap sampleTwo (sampleEnvSwap.atohs 256)
          xmt sendLastReply).2 256 default
          = (false, default)) ∧
    (∀ req, sampleTwo.reqPool.idPool.entry (sampleEnvSwap.atohs 256) = some req →
      req.remNode_ < 2 ^ 16 → req.taskName_ < 2 ^ 32 →
      (sampleTwo.task req.task_).handle < 2 ^ 32 →
      req.initTime_ < 2 ^ 32 → req.lastUpdate.tv_sec < 2 ^ 32 →
      (RequestPool.fillRequestDetail sampleEnvSwap sampleTwo 256 default).1 = true ∧
      sampleEnvSwap.atohs (RequestPool.fillRequestDetail sampleEnvSwap sampleTwo 256 default).2.remNode
        = req.remNode_ ∧
      sampleEnvSwap.atohl (RequestPool.fillRequestDetail sampleEnvSwap sampleTwo 256 default).2.remName
        = req.taskName_ ∧
      sampleEnvSwap.atohl (RequestPool.fillRequestDetail sampleEnvSwap sampleTwo 256 default).2.lclName
        = (sampleTwo.task req.task_).handle ∧
      sampleEnvSwap.atohl (RequestPool.fillRequestDetail sampleEnvSwap sampleTwo 256 default).2.initTime
        = req.initTime_ ∧
      sampleEnvSwap.atohl
          (RequestPool.fillRequestDetail sampleEnvSwap sampleTwo 256 default).2.lastUpdate
        = req.lastUpdate.tv_sec)) :=
  ⟨bswap16_bswap16, bswap32_bswap32,
    fillRequestDetail_decodes sampleEnvSwap sampleTwo 256 default bswap16_bswap16
      bswap32_bswap32⟩

/-- C13: for a live request `fillRequestDetail` stores `atohs(id)`, the
host-order id, in the id field, while the other five fields hold `htoas` or
`htoal` of the stored host-order values. -/
theorem fillRequestDetail_id_host_order (env : Env) (w : TaskPool) (id : Nat)
    (buf : reqDetail) (req : ReqInfo)
    (hlive : w.reqPool.idPool.entry (env.atohs id) = some req) :
    (RequestPool.fillRequestDetail env w id buf).1 = true ∧
    (RequestPool.fillRequestDetail env w id buf).2.id = env.atohs id ∧
    (RequestPool.fillRequestDetail env w id buf).2.remNode = env.htoas req.remNode_ ∧
    (RequestPool.fillRequestDetail env w id buf).2.remName = env.htoal req.taskName_ ∧
    (RequestPool.fillRequestDetail env w id buf).2.lclName
      = env.htoal (w.task req.task_).handle ∧
    (RequestPool.fillRequestDetail env w id buf).2.initTime
      = env.htoal (req.initTime_ % 2 ^ 32) ∧
    (RequestPool.fillRequestDetail env w id buf).2.lastUpdate
      = env.htoal (req.lastUpdate.tv_sec % 2 ^ 32) := by
  rw [fillRequestDetail_some env w id buf req hlive]
  exact ⟨rfl, rfl, rfl, rfl, rfl, rfl, rfl⟩

/-- C13 on the byte-swapping host: request 1 of `sampleTwo` has wire id 256; the
id field of its detail record is 1, which is neither `htoas 1` nor the id passed
in. -/
theorem fillRequestDetail_id_host_order_witness :
    sampleTwo.reqPool.idPool.entry (sampleEnvSwap.atohs 256)
      = some { sampleReq with remNode_ := 3 } ∧
    sampleEnvSwap.atohs 256 = 1 ∧ sampleEnvSwap.htoas 1 = 256 ∧
    (RequestPool.fillRequestDetail sampleEnvSwap sampleTwo 256 default).2.id = 1 ∧
    (RequestPool.fillRequestDetail sampleEnvSwap sampleTwo 256 default).2.id
      ≠ sampleEnvSwap.htoas 1 ∧
    ((RequestPool.fillRequestDetail sampleEnvSwap sampleTwo 256 default).1 = true ∧
    (RequestPool.fillRequestDetail sampleEnvSwap sampleTwo 256 default).2.id
      = sampleEnvSwap.atohs 256 ∧
    (RequestPool.fillRequestDetail sampleEnvSwap sampleTwo 256 default).2.remNode
      = sampleEnvSwap.htoas ({ sampleReq with remNode_ := 3 } : ReqInfo).remNode_ ∧
    (RequestPool.fillRequestDetail sampleEnvSwap sampleTwo 256 default).2.remName
      = sampleEnvSwap.htoal ({ sampleReq with remNode_ := 3 } : ReqInfo).taskName_ ∧
    (RequestPool.fillRequestDetail sampleEnvSwap sampleTwo 256 default).2.lclName
      = sampleEnvSwap.htoal
          (sampleTwo.task ({ sampleReq with remNode_ := 3 } : ReqInfo).task_).handle ∧
    (RequestPool.fillRequestDetail sampleEnvSwap sampleTwo 256 default).2.initTime
      = sampleEnvSwap.htoal (({ sampleReq with remNode_ := 3 } : ReqInfo).initTime_ % 2 ^ 32) ∧
    (RequestPool.fillRequestDetail sampleEnvSwap sampleTwo 256 default).2.lastUpdate
      = sampleEnvSwap.htoal
          (({ sampleReq with remNode_ := 3 } : ReqInfo).lastUpdate.tv_sec % 2 ^ 32)) :=
  ⟨by decide, by decide, by decide, by decide, by decide,
    fillRequestDetail_id_host_order sampleEnvSwap sampleTwo 256 default
      { sampleReq with remNode_ := 3 } (by decide)⟩

/-- C14 refuted as stated: with client sends that report failure,
`cancelReqId(0, true, true)` on `sampleOne` sends the final DISCONNECTED reply
once and hands no task to `removeTask`. -/
theorem cancelReqId_failed_send_no_removeTask :
    (∀ tr t hdr, sampleEnvFail.sendDataToClient tr t hdr = false) ∧
    (RequestPool.cancelReqId sampleEnvFail sampleOne 0 true true).2.sent =
      [Event.toNetwork ⟨.ACNET_FLG_CAN, .ACNET_SUCCESS, 2, 1, 5, 7, 0, 18⟩,
        Event.toClient 0 ⟨.ACNET_FLG_RPY, .ACNET_DISCONNECTED, 2, 1, 5, 7, 0, 18⟩] ∧
    Event.removeTask 0 ∉ (RequestPool.cancelReqId sampleEnvFail sampleOne 0 true true).2.sent :=
  ⟨fun _ _ _ => rfl, by decide, by decide⟩

/-- C14 as amended: the timeout reply of the sweep and the DISCONNECTED reply of
`cancelReqToNode` are each sent once, followed by the `removeTask` hand-over of
the owning task exactly when that send reported failure; the final DISCONNECTED
reply of `cancelReqId` (both flags set) is sent once and its result is
discarded, no `removeTask` following. -/
theorem client_send_failure_handling (env : Env) (w : TaskPool) (id : Nat) (req : ReqInfo)
    (hlive : w.reqPool.idPool.entry id = some req) :
    (sweepExpired env w id req).sent =
      w.sent ++
        [Event.toClient req.task_ ⟨.ACNET_FLG_RPY, .ACNET_TMO, req.remNode_, req.lclNode_,
            req.taskName_, (w.task req.task_).id, id, env.sizeofAcnetHeader⟩,
          Event.toNetwork ⟨.ACNET_FLG_CAN, .ACNET_SUCCESS, req.remNode_, req.lclNode_,
            req.taskName_, (w.task req.task_).id, id, env.sizeofAcnetHeader⟩] ++
        (if env.sendDataToClient w.sent req.task_ ⟨.ACNET_FLG_RPY, .ACNET_TMO, req.remNode_,
            req.lclNode_, req.taskName_, (w.task req.task_).id, id, env.sizeofAcnetHeader⟩ = true
          then [] else [Event.removeTask req.task_]) ∧
    (cancelReqToNodeHit env w id req).sent =
      w.sent ++
        [Event.toClient req.task_ ⟨.ACNET_FLG_RPY, .ACNET_DISCONNECTED, req.remNode_,
          req.lclNode_, req.taskName_, (w.task req.task_).id, id, env.sizeofAcnetHeader⟩] ++
        (if env.sendDataToClient w.sent req.task_ ⟨.ACNET_FLG_RPY, .ACNET_DISCONNECTED,
            req.remNode_, req.lclNode_, req.taskName_, (w.task req.task_).id, id,
            env.sizeofAcnetHeader⟩ = true
          then [] else [Event.removeTask req.task_]) ∧
    (RequestPool.cancelReqId env w id true true).2.sent =
      w.sent ++
        [Event.toNetwork ⟨.ACNET_FLG_CAN, .ACNET_SUCCESS, req.remNode_, req.lclNode_,
            req.taskName_, (w.task req.task_).id, id, env.sizeofAcnetHeader⟩,
          Event.toClient req.task_ ⟨.ACNET_FLG_RPY, .ACNET_DISCONNECTED, req.remNode_,
            req.lclNode_, req.taskName_, (w.task req.task_).id, id, env.sizeofAcnetHeader⟩] := by
  refine ⟨(sweepExpired_live env w id req hlive).2, (cancelReqToNodeHit_fields env w id req).2.1,
    ?_⟩
  rw [cancelReqId_live env w id req true true hlive]
  show (cancelReqIdXmt _ _ _ _ _ _).sent = _
  rw [cancelReqIdXmt_sent, (TaskPool.task_after_removeRequest w req.task_ id req.task_).1]
  rfl

/-- C14 at the sample state with failing client sends: request 0 of
`sampleOne`. -/
theorem client_send_failure_handling_witness :
    sampleOne.reqPool.idPool.entry 0 = some sampleReq ∧
    ((sweepExpired sampleEnvFail sampleOne 0 sampleReq).sent =
      sampleOne.sent ++
        [Event.toClient sampleReq.task_ ⟨.ACNET_FLG_RPY, .ACNET_TMO, sampleReq.remNode_,
            sampleReq.lclNode_, sampleReq.taskName_, (sampleOne.task sampleReq.task_).id, 0,
            sampleEnvFail.sizeofAcnetHeader⟩,
          Event.toNetwork ⟨.ACNET_FLG_CAN, .ACNET_SUCCESS, sampleReq.remNode_,
            sampleReq.lclNode_, sampleReq.taskName_, (sampleOne.task sampleReq.task_).id, 0,
            sampleEnvFail.sizeofAcnetHeader⟩] ++
        (if sampleEnvFail.sendDataToClient sampleOne.sent sampleReq.task_
            ⟨.ACNET_FLG_RPY, .ACNET_TMO, sampleReq.remNode_, sampleReq.lclNode_,
              sampleReq.taskName_, (sampleOne.task sampleReq.task_).id, 0,
              sampleEnvFail.sizeofAcnetHeader⟩ = true
          then [] else [Event.removeTask sampleReq.task_]) ∧
    (cancelReqToNodeHit sampleEnvFail sampleOne 0 sampleReq).sent =
      sampleOne.sent ++
        [Event.toClient sampleReq.task_ ⟨.ACNET_FLG_RPY, .ACNET_DISCONNECTED,
          sampleReq.remNode_, sampleReq.lclNode_, sampleReq.taskName_,
          (sampleOne.task sampleReq.task_).id, 0, sampleEnvFail.sizeofAcnetHeader⟩] ++
        (if sampleEnvFail.sendDataToClient sampleOne.sent sampleReq.task_
            ⟨.ACNET_FLG_RPY, .ACNET_DISCONNECTED, sampleReq.remNode_, sampleReq.lclNode_,
              sampleReq.taskName_, (sampleOne.task sampleReq.task_).id, 0,
              sampleEnvFail.sizeofAcnetHeader⟩ = true
          then [] else [Event.removeTask sampleReq.task_]) ∧
    (RequestPool.cancelReqId sampleEnvFail sampleOne 0 true true).2.sent =
      sampleOne.sent ++
        [Event.toNetwork ⟨.ACNET_FLG_CAN, .ACNET_SUCCESS, sampleReq.remNode_,
            sampleReq.lclNode_, sampleReq.taskName_, (sampleOne.task sampleReq.task_).id, 0,
            sampleEnvFail.sizeofAcnetHeader⟩,
          Event.toClient sampleReq.task_ ⟨.ACNET_FLG_RPY, .ACNET_DISCONNECTED,
            sampleReq.remNode_, sampleReq.lclNode_, sampleReq.taskName_,
            (sampleOne.task sampleReq.task_).id, 0, sampleEnvFail.sizeofAcnetHeader⟩]) :=
  ⟨by decide, client_send_failure_handling sampleEnvFail sampleOne 0 sampleReq (by decide)⟩

/-- C15: the record created by `RequestPool::alloc` has `mcast` true exactly
when `getAddr(remNode)` yields an address whose value after the source's
conversion to host order has `1110` as its top four bits, and false when
`getAddr` yields no address. -/
theorem alloc_mcast (env : Env) (w : TaskPool)
    (task taskName lclNode remNode flags tmo id : Nat) (p1 : IdPool)
    (hslot : w.reqPool.idPool.alloc = some (id, p1)) :
    ∃ r, (RequestPool.alloc env w task taskName lclNode remNode flags tmo).2.reqPool.idPool.entry id
        = some r ∧
      (r.mcast = true ↔
        ∃ a, env.getAddr remNode = some a ∧ env.htonl a % 2 ^ 32 / 2 ^ 28 = 14) ∧
      (env.getAddr remNode = none → r.mcast = false) := by
  obtain ⟨r, hr, -, -, -, -, -, -, -, hm⟩ :=
    alloc_entry_fields env w task taskName lclNode remNode flags tmo id p1 hslot
  refine ⟨r, hr, ?_, ?_⟩
  · rw [hm]
    cases hg : env.getAddr remNode with
    | none => simp
    | some a => simp [IN_MULTICAST]
  · intro hg
    rw [hm, hg]

/-- C15 at the sample state: node 2 resolves to 224.0.0.1 on the byte-swapping
host. -/
theorem alloc_mcast_witness :
    sampleEmpty.reqPool.idPool.alloc = some (0, ⟨[some default, none], 1⟩) ∧
    sampleEnvMcast.htonl 16777440 = 3758096385 ∧
    ∃ r, (RequestPool.alloc sampleEnvMcast sampleEmpty 0 5 1 2 0 100).2.reqPool.idPool.entry 0
        = some r ∧
      (r.mcast = true ↔
        ∃ a, sampleEnvMcast.getAddr 2 = some a ∧
          sampleEnvMcast.htonl a % 2 ^ 32 / 2 ^ 28 = 14) ∧
      (sampleEnvMcast.getAddr 2 = none → r.mcast = false) :=
  ⟨by decide, by decide,
    alloc_mcast sampleEnvMcast sampleEmpty 0 5 1 2 0 100 0 ⟨[some default, none], 1⟩ (by decide)⟩

/-- C17: `cancelReqToNode(n)` ends at most one request.  When no live entry is
addressed to `n` it returns the state unchanged, trace included.  Otherwise it
releases the first live entry addressed to `n` (the one with the lowest id), the
active count drops by exactly one, and the other entries addressed to `n` are
exactly the live entries addressed to `n` afterwards, records unchanged. -/
theorem cancelReqToNode_first_match_only (env : Env) (w : TaskPool) (n : Nat) :
    match w.reqPool.idPool.active.filter (fun e => decide (e.2.remNode_ = n)) with
    | [] => RequestPool.cancelReqToNode env w n = some w
    | e :: rest =>
      ∃ w', RequestPool.cancelReqToNode env w n = some w' ∧
        w'.reqPool = w.reqPool.release e.1 ∧
        w'.reqPool.idPool.entry e.1 = none ∧
        w'.reqPool.idPool.activeIdCount + 1 = w.reqPool.idPool.activeIdCount ∧
        w'.reqPool.idPool.active = w.reqPool.idPool.active.filter (fun x => x.1 != e.1) ∧
        w'.reqPool.idPool.active.filter (fun x => decide (x.2.remNode_ = n)) = rest ∧
        (∀ x ∈ rest, e.1 < x.1 ∧ w'.reqPool.idPool.entry x.1 = some x.2) := by
  generalize hf : w.reqPool.idPool.active.filter (fun e => decide (e.2.remNode_ = n)) = l
  cases l with
  | nil =>
    simp only
    rw [cancelReqToNode_eq, hf]
    rfl
  | cons e rest =>
    simp only
    have hsorted : (e :: rest).Pairwise (fun a b => a.1 < b.1) := by
      rw [← hf]
      exact List.Pairwise.sublist (List.filter_sublist _) (liveFrom_sorted _ _)
    have hmem : e ∈ w.reqPool.idPool.active := by
      have : e ∈ w.reqPool.idPool.active.filter (fun e => decide (e.2.remNode_ = n)) := by
        rw [hf]; exact List.mem_cons_self _ _
      exact (List.mem_filter.1 this).1
    have hlive : w.reqPool.idPool.entry e.1 = some e.2 := (IdPool.mem_active _ _ _).1 hmem
    obtain ⟨hrp, -, -⟩ := cancelReqToNodeHit_fields env w e.1 e.2
    have hrest : (w.reqPool.release e.1).idPool.active.filter
        (fun x => decide (x.2.remNode_ = n)) = rest := by
      rw [RequestPool.release_idPool, IdPool.active_release, List.filter_filter]
      have h2 : w.reqPool.idPool.active.filter
          (fun a => decide (a.2.remNode_ = n) && (a.1 != e.1))
          = (w.reqPool.idPool.active.filter (fun e => decide (e.2.remNode_ = n))).filter
              (fun a => a.1 != e.1) := by
        rw [List.filter_filter]
        congr 1
        funext a
        exact Bool.and_comm _ _
      rw [h2, hf, List.filter_cons_of_neg (by simp), List.filter_eq_self]
      intro x hx
      have := (List.pairwise_cons.1 hsorted).1 x hx
      simp only [bne_iff_ne, ne_eq]
      omega
    refine ⟨cancelReqToNodeHit env w e.1 e.2, ?_, hrp, ?_, ?_, ?_, ?_, ?_⟩
    · rw [cancelReqToNode_eq, hf]
      rfl
    · rw [hrp]
      exact IdPool.entry_release_self _ _
    · rw [hrp]
      exact IdPool.activeIdCount_release _ _ _ hlive
    · rw [hrp]
      exact IdPool.active_release _ _
    · rw [hrp]
      exact hrest
    · intro x hx
      have hlt := (List.pairwise_cons.1 hsorted).1 x hx
      refine ⟨hlt, ?_⟩
      rw [hrp, RequestPool.release_idPool, IdPool.entry_release_other _ _ _ (by omega)]
      have : x ∈ w.reqPool.idPool.active.filter (fun e => decide (e.2.remNode_ = n)) := by
        rw [hf]; exact List.mem_cons_of_mem _ hx
      exact (IdPool.mem_active _ _ _).1 (List.mem_filter.1 this).1

/-- C16: on a duplicate-free expiration queue whose entries are live, with
normalised time values and every queued record's remaining time below 2^31 ms
(so that it fits the `int` result), `sendRequestTimeoutsAndGetNextTimeout`
returns.  The final state is the one obtained by running the expired branch (timeout reply,
cancel, release) on the ids of the longest prefix of the queue whose records
have `expiration() <= now`, one after the other from the oldest; the TMO
replies added to the trace are those ids in queue order; those ids have no live
record afterwards; every other record is unchanged and the rest of the queue
keeps its order; the result is -1 exactly when the queue is empty afterwards. -/
theorem sweep_expired_prefix (env : Env) (w : TaskPool)
    (hnodup : w.reqPool.root.Nodup)
    (hsync : ∀ id ∈ w.reqPool.root, ∃ r, w.reqPool.idPool.entry id = some r)
    (hn : env.now.tv_usec < 1000000) (he : ∀ r, (env.expiration r).tv_usec < 1000000)
    (hfit : ∀ id ∈ w.reqPool.root, ∀ r, w.reqPool.idPool.entry id = some r →
      diffInMs (env.expiration r) env.now < 2147483648) :
    ∃ ret w', RequestPool.sendRequestTimeoutsAndGetNextTimeout env w = some (ret, w') ∧
      w'.reqPool.root = w.reqPool.root.dropWhile (expired env w) ∧
      w' = (w.reqPool.root.takeWhile (expired env w)).foldl
        (fun a id => sweepExpired env a id ((w.reqPool.idPool.entry id).getD default)) w ∧
      (∀ j ∈ w.reqPool.root.takeWhile (expired env w), w'.reqPool.idPool.entry j = none) ∧
      (∀ j, j ∉ w.reqPool.root.takeWhile (expired env w) →
        w'.reqPool.idPool.entry j = w.reqPool.idPool.entry j) ∧
      tmoReplyIds w'.sent = tmoReplyIds w.sent ++ w.reqPool.root.takeWhile (expired env w) ∧
      (ret = -1 ↔ w'.reqPool.root = []) := by
  unfold RequestPool.sendRequestTimeoutsAndGetNextTimeout
  exact sweepLoop_prefix env hn he w.reqPool.root w _ rfl hnodup hsync hfit
    (Nat.lt_succ_self _)

/-- C16 at the sample state: at second 2000 request 0 of `sampleMixed` has
expired and request 1 has not. -/
theorem sweep_expired_prefix_witness :
    sampleMixed.reqPool.root.Nodup ∧
    (∀ id ∈ sampleMixed.reqPool.root, ∃ r, sampleMixed.reqPool.idPool.entry id = some r) ∧
    sampleEnvLate.now.tv_usec < 1000000 ∧
    (∀ r, (sampleEnvLate.expiration r).tv_usec < 1000000) ∧
    (∀ id ∈ sampleMixed.reqPool.root, ∀ r, sampleMixed.reqPool.idPool.entry id = some r →
      diffInMs (sampleEnvLate.expiration r) sampleEnvLate.now < 2147483648) ∧
    sampleMixed.reqPool.root.takeWhile (expired sampleEnvLate sampleMixed) = [0] ∧
    ∃ ret w', RequestPool.sendRequestTimeoutsAndGetNextTimeout sampleEnvLate sampleMixed
        = some (ret, w') ∧
      w'.reqPool.root = sampleMixed.reqPool.root.dropWhile (expired sampleEnvLate sampleMixed) ∧
      w' = (sampleMixed.reqPool.root.takeWhile (expired sampleEnvLate sampleMixed)).foldl
        (fun a id => sweepExpired sampleEnvLate a id
          ((sampleMixed.reqPool.idPool.entry id).getD default)) sampleMixed ∧
      (∀ j ∈ sampleMixed.reqPool.root.takeWhile (expired sampleEnvLate sampleMixed),
        w'.reqPool.idPool.entry j = none) ∧
      (∀ j, j ∉ sampleMixed.reqPool.root.takeWhile (expired sampleEnvLate sampleMixed) →
        w'.reqPool.idPool.entry j = sampleMixed.reqPool.idPool.entry j) ∧
      tmoReplyIds w'.sent = tmoReplyIds sampleMixed.sent ++
        sampleMixed.reqPool.root.takeWhile (expired sampleEnvLate sampleMixed) ∧
      (ret = -1 ↔ w'.reqPool.root = []) :=
  have hsync : ∀ id ∈ sampleMixed.reqPool.root,
      ∃ r, sampleMixed.reqPool.idPool.entry id = some r := by
    intro id hid
    have h : id = 0 ∨ id = 1 := by simpa [sampleMixed] using hid
    rcases h with h | h <;> subst h <;> exact ⟨_, rfl⟩
  have he : ∀ r, (sampleEnvLate.expiration r).tv_usec < 1000000 := by
    intro r
    show r.tmoMs % 1000 * 1000 < 1000000
    omega
  have hfit : ∀ id ∈ sampleMixed.reqPool.root, ∀ r,
      sampleMixed.reqPool.idPool.entry id = some r →
      diffInMs (sampleEnvLate.expiration r) sampleEnvLate.now < 2147483648 := by
    intro id hid r hr
    have h : id = 0 ∨ id = 1 := by simpa [sampleMixed] using hid
    rcases h with h | h
    · subst h
      have e : sampleReq = r := Option.some.inj hr
      subst e
      decide
    · subst h
      have e : ({ sampleReq with initTime_ := 3000 } : ReqInfo) = r := Option.some.inj hr
      subst e
      decide
  ⟨by decide, hsync, by decide, he, hfit, by decide,
    sweep_expired_prefix sampleEnvLate sampleMixed (by decide) hsync (by decide) he hfit⟩

/-- C18: from a state whose expiration queue and id pool are in sync,
`cancelReqId`, `cancelReqToNode`, `sendRequestTimeoutsAndGetNextTimeout` and a
successful `alloc` (as well as an `alloc` that finds no free slot) leave them in
sync, the two loops ending on every such state.  An `alloc` whose `addRequest`
is rejected ends with `free(req)` and leaves the claimed slot live outside the
queue: the state is out of sync. -/
theorem sync_kept_except_rejected_alloc (env : Env) (w : TaskPool) (hs : w.reqPool.Sync) :
    (∀ task taskName lclNode remNode flags tmo id p1,
      w.reqPool.idPool.alloc = some (id, p1) →
      ((RequestPool.alloc env w task taskName lclNode remNode flags tmo).1 = .ok id →
        (RequestPool.alloc env w task taskName lclNode remNode flags tmo).2.reqPool.Sync) ∧
      ((RequestPool.alloc env w task taskName lclNode remNode flags tmo).1
          = .error .logic_error →
        ¬ (RequestPool.alloc env w task taskName lclNode remNode flags tmo).2.reqPool.Sync)) ∧
    (∀ task taskName lclNode remNode flags tmo,
      w.reqPool.idPool.alloc = none →
      RequestPool.alloc env w task taskName lclNode remNode flags tmo
        = (.error .bad_alloc, w)) ∧
    (∀ id xmt sendLastReply,
      (RequestPool.cancelReqId env w id xmt sendLastReply).2.reqPool.Sync) ∧
    (∀ n, ∃ w', RequestPool.cancelReqToNode env w n = some w' ∧ w'.reqPool.Sync) ∧
    (∃ ret w', RequestPool.sendRequestTimeoutsAndGetNextTimeout env w = some (ret, w') ∧
      w'.reqPool.Sync) := by
  refine ⟨?_, ?_, ?_, ?_, ?_⟩
  · intro task taskName lclNode remNode flags tmo id p1 hslot
    obtain ⟨⟨r, hr⟩, hother, hroot⟩ :=
      alloc_reqPool env w task taskName lclNode remNode flags tmo id p1 hslot
    obtain ⟨-, hfree, -⟩ := IdPool.alloc_some hslot
    have hnotq : id ∉ w.reqPool.root := by
      intro hm
      obtain ⟨r0, hr0⟩ := (hs id).1 hm
      rw [hfree] at hr0
      exact absurd hr0 (by simp)
    constructor
    · intro hok
      rcases hroot with ⟨-, hq⟩ | ⟨herr, -⟩
      · intro j
        rw [hq, List.mem_append, List.mem_filter, List.mem_singleton]
        by_cases hj : j = id
        · subst hj
          simp only [or_true, true_iff]
          exact ⟨r, hr⟩
        · rw [hother j hj, ← hs j]
          simp [hj]
      · rw [herr] at hok
        exact absurd hok (by simp)
    · intro herr hsync
      rcases hroot with ⟨hok, -⟩ | ⟨-, hq⟩
      · rw [hok] at herr
        exact absurd herr (by simp)
      · have := (hsync id).2 ⟨r, hr⟩
        rw [hq] at this
        exact hnotq this
  · intro task taskName lclNode remNode flags tmo hnone
    unfold RequestPool.alloc
    rw [hnone]
  · intro id xmt sendLastReply
    rcases cancelReqId_reqPool env w id xmt sendLastReply with h | h
    · rw [h]; exact hs
    · rw [h]; exact RequestPool.Sync_release _ _ hs
  · intro n
    obtain ⟨w', hrun, h | ⟨id, h⟩⟩ := cancelReqToNode_reqPool env w n
    · exact ⟨w', hrun, by rw [h]; exact hs⟩
    · exact ⟨w', hrun, by rw [h]; exact RequestPool.Sync_release _ _ hs⟩
  · unfold RequestPool.sendRequestTimeoutsAndGetNextTimeout
    exact sweepLoop_sync env _ w _ (Nat.le_refl _) hs (Nat.lt_succ_self _)

/-- C18 at the sample state: `sampleHeld` is in sync, its client already holds
id 0, and the rejected `alloc` leaves slot 0 live with an empty queue. -/
theorem sync_kept_except_rejected_alloc_witness :
    sampleHeld.reqPool.Sync ∧
    (RequestPool.alloc sampleEnv sampleHeld 0 5 1 2 0 100).1 = .error .logic_error ∧
    (RequestPool.alloc sampleEnv sampleHeld 0 5 1 2 0 100).2.reqPool
      = ⟨⟨[some { sampleReq with lastUpdate := ⟨0, 0⟩, totalPackets := 0 }, none], 1⟩, []⟩ ∧
    ((∀ task taskName lclNode remNode flags tmo id p1,
      sampleHeld.reqPool.idPool.alloc = some (id, p1) →
      ((RequestPool.alloc sampleEnv sampleHeld task taskName lclNode remNode flags tmo).1
          = .ok id →
        (RequestPool.alloc sampleEnv sampleHeld task taskName lclNode remNode flags
          tmo).2.reqPool.Sync) ∧
      ((RequestPool.alloc sampleEnv sampleHeld task taskName lclNode remNode flags tmo).1
          = .error .logic_error →
        ¬ (RequestPool.alloc sampleEnv sampleHeld task taskName lclNode remNode flags
          tmo).2.reqPool.Sync)) ∧
    (∀ task taskName lclNode remNode flags tmo,
      sampleHeld.reqPool.idPool.alloc = none →
      RequestPool.alloc sampleEnv sampleHeld task taskName lclNode remNode flags tmo
        = (.error .bad_alloc, sampleHeld)) ∧
    (∀ id xmt sendLastReply,
      (RequestPool.cancelReqId sampleEnv sampleHeld id xmt sendLastReply).2.reqPool.Sync) ∧
    (∀ n, ∃ w', RequestPool.cancelReqToNode sampleEnv sampleHeld n = some w' ∧
      w'.reqPool.Sync) ∧
    (∃ ret w', RequestPool.sendRequestTimeoutsAndGetNextTimeout sampleEnv sampleHeld
        = some (ret, w') ∧
      w'.reqPool.Sync)) :=
  have hs : sampleHeld.reqPool.Sync := by
    intro id
    have hnone : sampleHeld.reqPool.idPool.entry id = none := by
      match id with
      | 0 => rfl
      | 1 => rfl
      | n + 2 => rfl
    rw [hnone]
    simp [sampleHeld]
  ⟨hs, rfl, by decide, sync_kept_except_rejected_alloc sampleEnv sampleHeld hs⟩

end Acnetd
